import Mathlib

/-!
# Miam-Player-QML: the Qxt private-implementation helper and the AVPlayer interface

Embedding of `src/Core/qxt/qxtglobal.h` (class templates `QxtPrivate<PUB>` and
`QxtPrivateInterface<PUB, PVT>`) as operations on an explicit world of objects,
and of the declarations of `QtAV/AVPlayer.h` (property list, members, signals,
`enum State`) as tables.
-/

namespace Qxt

/-- C++ pointer value: an address, `0` being the null pointer. -/
abbrev Ptr := Nat

/-- Ways in which an execution leaves defined C++ behaviour. -/
inductive Fault
  /-- Dereference `*p` or `p->m` with `p` null or not pointing to a live object -/
  | invalidDeref
  /-- read of a member that no constructor or assignment has given a value -/
  | uninitRead
  /-- member call on, or construction over, interface storage outside its lifetime -/
  | lifetime
  /-- Allocator fault: `operator new` handing out null or storage that is still in use -/
  | allocator
  deriving DecidableEq, Repr

/-- Object of class `PVT : QxtPrivate<PUB>`: the base subobject's only data
member `PUB* qxt_p_ptr` (`none` while indeterminate: `QxtPrivate` declares no
constructor, so `new PVT` leaves it without a value) and the members `PVT`
itself adds. -/
structure QxtPrivate (F : Type) where
  qxt_p_ptr : Option Ptr
  members : F
  deriving DecidableEq, Repr

/-- The objects a program using the helper has: live `PUB` objects, the free
store of private instances, and the live `QxtPrivateInterface` objects, each
given by the value of its data member `QxtPrivate<PUB>* pvt`. -/
structure World (F : Type) where
  pubs : Ptr → Bool
  heap : Ptr → Option (QxtPrivate F)
  ifaces : Ptr → Option Ptr

variable {F : Type}

/-- World with the given `PUB` objects, no private instance and no interface. -/
def World.init (pubs : Ptr → Bool) : World F :=
  { pubs := pubs, heap := fun _ => none, ifaces := fun _ => none }

/-- The private instance a pointer designates; the null pointer designates none. -/
def World.lookup (w : World F) (p : Ptr) : Option (QxtPrivate F) :=
  if p = 0 then none else w.heap p

/-- Set of live private instances, by address. -/
def World.livePrivate (w : World F) : Set Ptr :=
  {a | (w.lookup a).isSome = true}

/-- Set of live interfaces, by address. -/
def World.liveIfaces (w : World F) : Set Ptr :=
  {i | (w.ifaces i).isSome = true}

/-- Dereference `*p` for `PUB* p`: the lvalue is represented by the address of the object. -/
def derefPub (w : World F) (p : Ptr) : Except Fault Ptr :=
  if p ≠ 0 ∧ w.pubs p = true then .ok p else .error .invalidDeref

/-! ### `QxtPrivate<PUB>` (qxtglobal.h, lines 54-85) -/

/-- Source: `void QXT_setPublic(PUB* pub) { qxt_p_ptr = pub; }` -/
def QxtPrivate.QXT_setPublic (self : QxtPrivate F) (pub : Ptr) : QxtPrivate F :=
  { self with qxt_p_ptr := some pub }

/-- Source: `PUB* qxt_ptr() { return qxt_p_ptr; }` -/
def QxtPrivate.qxt_ptr (self : QxtPrivate F) : Except Fault Ptr :=
  match self.qxt_p_ptr with
  | some p => .ok p
  | none => .error .uninitRead

/-- Source: `const PUB* qxt_ptr() const { return qxt_p_ptr; }` -/
def QxtPrivate.qxt_ptr_const (self : QxtPrivate F) : Except Fault Ptr :=
  match self.qxt_p_ptr with
  | some p => .ok p
  | none => .error .uninitRead

/-- Source: `PUB& qxt_p() { return *qxt_p_ptr; }` -/
def QxtPrivate.qxt_p (w : World F) (self : QxtPrivate F) : Except Fault Ptr :=
  match self.qxt_p_ptr with
  | some p => derefPub w p
  | none => .error .uninitRead

/-- Source: `const PUB& qxt_p() const { return *qxt_p_ptr; }` -/
def QxtPrivate.qxt_p_const (w : World F) (self : QxtPrivate F) : Except Fault Ptr :=
  match self.qxt_p_ptr with
  | some p => derefPub w p
  | none => .error .uninitRead

/-- Member call `a->f()` of a read-only member of the private instance at `a`. -/
def World.onPrivate {α : Type} (w : World F) (a : Ptr)
    (f : QxtPrivate F → Except Fault α) : Except Fault α :=
  match w.lookup a with
  | some o => f o
  | none => .error .invalidDeref

/-- Call `a->QXT_setPublic(pub)` on the private instance at `a`. -/
def World.QXT_setPublic (w : World F) (a pub : Ptr) : Except Fault (World F) :=
  match w.lookup a with
  | some o => .ok { w with heap := Function.update w.heap a (some (o.QXT_setPublic pub)) }
  | none => .error .invalidDeref

/-- Call `a->qxt_ptr()` -/
def World.qxt_ptr (w : World F) (a : Ptr) : Except Fault Ptr :=
  w.onPrivate a QxtPrivate.qxt_ptr

/-- Call `a->qxt_ptr()` through a pointer to const -/
def World.qxt_ptr_const (w : World F) (a : Ptr) : Except Fault Ptr :=
  w.onPrivate a QxtPrivate.qxt_ptr_const

/-- Call `a->qxt_p()` -/
def World.qxt_p (w : World F) (a : Ptr) : Except Fault Ptr :=
  w.onPrivate a (QxtPrivate.qxt_p w)

/-- Call `a->qxt_p()` through a pointer to const -/
def World.qxt_p_const (w : World F) (a : Ptr) : Except Fault Ptr :=
  w.onPrivate a (QxtPrivate.qxt_p_const w)

/-! ### `QxtPrivateInterface<PUB, PVT>` (qxtglobal.h, lines 87-125) -/

/-- Expression `new PVT`: the allocator hands out address `a`, the default constructor of
`PVT` gives its own members the value `v` and leaves `qxt_p_ptr` alone. -/
def World.new_PVT (w : World F) (a : Ptr) (v : F) : Except Fault (World F) :=
  if a = 0 ∨ (w.heap a).isSome = true then .error .allocator
  else .ok { w with heap := Function.update w.heap a (some { qxt_p_ptr := none, members := v }) }

/-- Expression `delete p`: nothing for the null pointer, else destroys the object at `p`. -/
def World.delete (w : World F) (p : Ptr) : Except Fault (World F) :=
  if p = 0 then .ok w
  else match w.heap p with
    | some _ => .ok { w with heap := Function.update w.heap p none }
    | none => .error .invalidDeref

/-- Source: `QxtPrivateInterface() { pvt = new PVT; }` run on the storage at `i`. -/
def World.construct (w : World F) (i a : Ptr) (v : F) : Except Fault (World F) :=
  match w.ifaces i with
  | some _ => .error .lifetime
  | none =>
    match w.new_PVT a v with
    | .ok w1 => .ok { w1 with ifaces := Function.update w1.ifaces i (some a) }
    | .error e => .error e

/-- Source: `~QxtPrivateInterface() { delete pvt; }` run on the interface at `i`. -/
def World.destruct (w : World F) (i : Ptr) : Except Fault (World F) :=
  match w.ifaces i with
  | none => .error .lifetime
  | some p =>
    match w.delete p with
    | .ok w1 => .ok { w1 with ifaces := Function.update w1.ifaces i none }
    | .error e => .error e

/-- Source: `void setPublic(PUB* pub) { pvt->QXT_setPublic(pub); }` -/
def World.setPublic (w : World F) (i pub : Ptr) : Except Fault (World F) :=
  match w.ifaces i with
  | none => .error .lifetime
  | some p => w.QXT_setPublic p pub

/-- Source: `PVT& operator()() { return *static_cast<PVT*>(pvt); }`: the lvalue is
represented by the address of the private instance it designates. -/
def World.call (w : World F) (i : Ptr) : Except Fault Ptr :=
  match w.ifaces i with
  | none => .error .lifetime
  | some p =>
    match w.lookup p with
    | some _ => .ok p
    | none => .error .invalidDeref

/-- Source: `const PVT& operator()() const { return *static_cast<PVT*>(pvt); }` -/
def World.call_const (w : World F) (i : Ptr) : Except Fault Ptr :=
  match w.ifaces i with
  | none => .error .lifetime
  | some p =>
    match w.lookup p with
    | some _ => .ok p
    | none => .error .invalidDeref

/-- Source: `PVT* operator->() { return static_cast<PVT*>(pvt); }` -/
def World.arrow (w : World F) (i : Ptr) : Except Fault Ptr :=
  match w.ifaces i with
  | none => .error .lifetime
  | some p => .ok p

/-- Source: `const PVT* operator->() const { return static_cast<PVT*>(pvt); }` -/
def World.arrow_const (w : World F) (i : Ptr) : Except Fault Ptr :=
  match w.ifaces i with
  | none => .error .lifetime
  | some p => .ok p

/-- Source: `#define QXT_INIT_PRIVATE(PUB) qxt_d.setPublic(this);` with `qxt_d` the
interface member of the `PUB` object `this`. -/
def World.QXT_INIT_PRIVATE (w : World F) (this qxt_d : Ptr) : Except Fault (World F) :=
  w.setPublic qxt_d this

/-! ### Executions -/

/-- One operation of the helper, with the values the environment supplies. -/
inductive Op (F : Type)
  | construct (i a : Ptr) (v : F)
  | destruct (i : Ptr)
  | setPublic (i pub : Ptr)
  | call (i : Ptr)
  | call_const (i : Ptr)
  | arrow (i : Ptr)
  | arrow_const (i : Ptr)
  | QXT_setPublic (a pub : Ptr)
  | qxt_p (a : Ptr)
  | qxt_p_const (a : Ptr)
  | qxt_ptr (a : Ptr)
  | qxt_ptr_const (a : Ptr)

/-- World after an accessor returned: unchanged, unless the accessor faulted. -/
def World.observe {α : Type} (w : World F) (r : Except Fault α) : Except Fault (World F) :=
  match r with
  | .ok _ => .ok w
  | .error e => .error e

/-- Effect of one operation on the world. -/
def World.step (w : World F) : Op F → Except Fault (World F)
  | .construct i a v => w.construct i a v
  | .destruct i => w.destruct i
  | .setPublic i pub => w.setPublic i pub
  | .call i => w.observe (w.call i)
  | .call_const i => w.observe (w.call_const i)
  | .arrow i => w.observe (w.arrow i)
  | .arrow_const i => w.observe (w.arrow_const i)
  | .QXT_setPublic a pub => w.QXT_setPublic a pub
  | .qxt_p a => w.observe (w.qxt_p a)
  | .qxt_p_const a => w.observe (w.qxt_p_const a)
  | .qxt_ptr a => w.observe (w.qxt_ptr a)
  | .qxt_ptr_const a => w.observe (w.qxt_ptr_const a)

/-- Effect of a sequence of operations, stopping at the first fault. -/
def World.run (w : World F) : List (Op F) → Except Fault (World F)
  | [] => .ok w
  | op :: ops =>
    match w.step op with
    | .ok w1 => w1.run ops
    | .error e => .error e

/-- Worlds a program reaches from no interface and no private instance. -/
def Reachable (w : World F) : Prop :=
  ∃ (pubs : Ptr → Bool) (ops : List (Op F)), (World.init pubs).run ops = .ok w

/-- Every live interface points to a live private instance, and no two live
interfaces point to the same one. -/
def World.Inv (w : World F) : Prop :=
  (∀ i a, w.ifaces i = some a → (w.lookup a).isSome = true) ∧
  (∀ i j a, w.ifaces i = some a → w.ifaces j = some a → i = j)

/-- Interface on which an operation is one of the interface's own member
functions other than constructor and destructor (`setPublic`, `operator()`,
`operator->`, the latter two in either const form). -/
def Op.accessOf : Op F → Option Ptr
  | .setPublic i _ => some i
  | .call i => some i
  | .call_const i => some i
  | .arrow i => some i
  | .arrow_const i => some i
  | _ => none

/-- Operations that write the back-reference of the private instance at `a`
owned by interface `i`, or end that instance's lifetime. -/
def Op.rebinds (i a : Ptr) : Op F → Bool
  | .setPublic j _ => decide (j = i)
  | .QXT_setPublic b _ => decide (b = a)
  | .destruct j => decide (j = i)
  | _ => false

/-- Operations that end the lifetime of interface `i`. -/
def Op.destroys (i : Ptr) : Op F → Bool
  | .destruct j => decide (j = i)
  | _ => false

/-- Two worlds that differ at most in back-references: same `PUB` objects,
same interfaces with the same `pvt`, same private instances with the same
`PVT` members. -/
def World.SameShape (w w1 : World F) : Prop :=
  w1.pubs = w.pubs ∧ w1.ifaces = w.ifaces ∧
  ∀ a, (w1.heap a).map QxtPrivate.members = (w.heap a).map QxtPrivate.members

/-- Operations that only read: `operator()`, `operator->`, `qxt_p()` and
`qxt_ptr()`, each in its const and non-const form. -/
def Op.isAccessor : Op F → Bool
  | .call _ => true
  | .call_const _ => true
  | .arrow _ => true
  | .arrow_const _ => true
  | .qxt_p _ => true
  | .qxt_p_const _ => true
  | .qxt_ptr _ => true
  | .qxt_ptr_const _ => true
  | _ => false

/-- Sample world: `PUB` objects at 7 and 8, and one interface at 10 whose
constructor has just returned with the private instance at 1. -/
def World.sample : World Unit :=
  { pubs := fun p => decide (p = 7 ∨ p = 8)
    heap := Function.update (fun _ => none) 1 (some { qxt_p_ptr := none, members := () })
    ifaces := Function.update (fun _ => none) 10 (some 1) }

/-- Sample world after `setPublic` has bound the interface at 10 to the `PUB`
object at 7. -/
def World.sampleBound : World Unit :=
  { pubs := fun p => decide (p = 7 ∨ p = 8)
    heap := Function.update
      (Function.update (fun _ => none) 1 (some { qxt_p_ptr := none, members := () }))
      1 (some { qxt_p_ptr := some 7, members := () })
    ifaces := Function.update (fun _ => none) 10 (some 1) }

/-- Sample world with two interfaces: the one at 10 bound to the `PUB` object
at 7, and a second one at 20, owning the instance at 2, bound to 8. -/
def World.sampleTwo : World Unit :=
  { pubs := fun p => decide (p = 7 ∨ p = 8)
    heap := Function.update (Function.update World.sampleBound.heap
      2 (some { qxt_p_ptr := none, members := () }))
      2 (some { qxt_p_ptr := some 8, members := () })
    ifaces := Function.update World.sampleBound.ifaces 20 (some 2) }

/-- Sample world without interfaces: `PUB` objects at 7 and 8. -/
def World.sample0 : World Unit :=
  World.init (fun p => decide (p = 7 ∨ p = 8))

end Qxt

namespace QtAV

/-! ### Declarations of `class AVPlayer` (QtAV/AVPlayer.h) -/

/-- One `Q_PROPERTY(type name READ r [WRITE w] [NOTIFY n])` line. -/
structure QProperty where
  ty : String
  name : String
  read : Option String
  write : Option String
  notify : Option String
  deriving DecidableEq, Repr

/-- The `Q_PROPERTY` lines of `AVPlayer`, in source order (lines 48-65). -/
def AVPlayer.properties : List QProperty :=
  [ ⟨"bool", "relativeTimeMode", some "relativeTimeMode", some "setRelativeTimeMode",
      some "relativeTimeModeChanged"⟩,
    ⟨"bool", "autoLoad", some "isAutoLoad", some "setAutoLoad", some "autoLoadChanged"⟩,
    ⟨"bool", "asyncLoad", some "isAsyncLoad", some "setAsyncLoad", some "asyncLoadChanged"⟩,
    ⟨"qreal", "bufferProgress", some "bufferProgress", none, some "bufferProgressChanged"⟩,
    ⟨"bool", "seekable", some "isSeekable", none, some "seekableChanged"⟩,
    ⟨"qint64", "duration", some "duration", none, some "durationChanged"⟩,
    ⟨"qint64", "position", some "position", some "setPosition", some "positionChanged"⟩,
    ⟨"qint64", "startPosition", some "startPosition", some "setStartPosition",
      some "startPositionChanged"⟩,
    ⟨"qint64", "stopPosition", some "stopPosition", some "setStopPosition",
      some "stopPositionChanged"⟩,
    ⟨"qint64", "repeat", some "repeat", some "setRepeat", some "repeatChanged"⟩,
    ⟨"int", "currentRepeat", some "currentRepeat", none, some "currentRepeatChanged"⟩,
    ⟨"qint64", "interruptTimeout", some "interruptTimeout", some "setInterruptTimeout",
      some "interruptTimeoutChanged"⟩,
    ⟨"bool", "interruptOnTimeout", some "isInterruptOnTimeout", some "setInterruptOnTimeout",
      some "interruptOnTimeoutChanged"⟩,
    ⟨"int", "notifyInterval", some "notifyInterval", some "setNotifyInterval",
      some "notifyIntervalChanged"⟩,
    ⟨"int", "brightness", some "brightness", some "setBrightness", some "brightnessChanged"⟩,
    ⟨"int", "contrast", some "contrast", some "setContrast", some "contrastChanged"⟩,
    ⟨"int", "saturation", some "saturation", some "setSaturation", some "saturationChanged"⟩,
    ⟨"State", "state", some "state", some "setState", some "stateChanged"⟩ ]

/-- Access section a member function is declared under. -/
inductive Sect
  | publicMember
  | publicSlot
  | signal
  | privateSlot
  | protectedMember
  deriving DecidableEq, Repr

/-- One parameter of a member function: type, name (empty when the
declaration gives none) and default argument. -/
structure Param where
  ty : String
  name : String
  dflt : Option String
  deriving DecidableEq, Repr

/-- Declaration of one member function. -/
structure Member where
  sect : Sect
  ret : String
  name : String
  params : List Param
  deriving DecidableEq, Repr

/-- Parameter without default argument. -/
def par (ty name : String) : Param :=
  { ty := ty, name := name, dflt := none }

/-- Parameter with a default argument. -/
def parDflt (ty name dflt : String) : Param :=
  { ty := ty, name := name, dflt := some dflt }

/-- Declaration under `public:`. -/
def pubMember (ret name : String) (params : List Param) : Member :=
  { sect := .publicMember, ret := ret, name := name, params := params }

/-- Declaration under `public slots:`. -/
def pubSlot (ret name : String) (params : List Param) : Member :=
  { sect := .publicSlot, ret := ret, name := name, params := params }

/-- Declaration under `Q_SIGNALS:`. -/
def sig (ret name : String) (params : List Param) : Member :=
  { sect := .signal, ret := ret, name := name, params := params }

/-- Declaration under `private Q_SLOTS:`. -/
def privSlot (ret name : String) (params : List Param) : Member :=
  { sect := .privateSlot, ret := ret, name := name, params := params }

/-- Declaration under `protected:`. -/
def protMember (ret name : String) (params : List Param) : Member :=
  { sect := .protectedMember, ret := ret, name := name, params := params }

/-- Member functions under `public:` (lines 75-379), constructor and
destructor left out. -/
def AVPlayer.publicMembers : List Member :=
  [ pubMember "const QStringList&" "supportedProtocols" [],
    pubMember "AVClock*" "masterClock" [],
    pubMember "void" "setFile" [par "const QString&" "path"],
    pubMember "QString" "file" [],
    pubMember "void" "setIODevice" [par "QIODevice*" "device"],
    pubMember "void" "setInput" [par "MediaIO*" "in"],
    pubMember "MediaIO*" "input" [],
    pubMember "bool" "load" [par "const QString&" "path", parDflt "bool" "reload" "true"],
    pubMember "bool" "load" [par "bool" "reload"],
    pubMember "bool" "isLoaded" [],
    pubMember "bool" "load" [],
    pubMember "void" "unload" [],
    pubMember "void" "setAsyncLoad" [parDflt "bool" "value" "true"],
    pubMember "bool" "isAsyncLoad" [],
    pubMember "void" "setAutoLoad" [parDflt "bool" "value" "true"],
    pubMember "bool" "isAutoLoad" [],
    pubMember "MediaStatus" "mediaStatus" [],
    pubMember "bool" "relativeTimeMode" [],
    pubMember "qint64" "absoluteMediaStartPosition" [],
    pubMember "qreal" "durationF" [],
    pubMember "qint64" "duration" [],
    pubMember "qint64" "mediaStartPosition" [],
    pubMember "qint64" "mediaStopPosition" [],
    pubMember "qreal" "mediaStartPositionF" [],
    pubMember "qreal" "mediaStopPositionF" [],
    pubMember "qint64" "startPosition" [],
    pubMember "qint64" "stopPosition" [],
    pubMember "qreal" "positionF" [],
    pubMember "qint64" "position" [],
    pubMember "int" "repeat" [],
    pubMember "int" "currentRepeat" [],
    pubMember "bool" "setExternalAudio" [par "const QString&" "file"],
    pubMember "QString" "externalAudio" [],
    pubMember "const QVariantList&" "externalAudioTracks" [],
    pubMember "const QVariantList&" "internalAudioTracks" [],
    pubMember "bool" "setAudioStream" [par "const QString&" "file", parDflt "int" "n" "0"],
    pubMember "bool" "setAudioStream" [par "int" "n"],
    pubMember "bool" "setVideoStream" [par "int" "n"],
    pubMember "const QVariantList&" "internalSubtitleTracks" [],
    pubMember "bool" "setSubtitleStream" [par "int" "n"],
    pubMember "int" "currentAudioStream" [],
    pubMember "int" "currentVideoStream" [],
    pubMember "int" "currentSubtitleStream" [],
    pubMember "int" "audioStreamCount" [],
    pubMember "int" "videoStreamCount" [],
    pubMember "int" "subtitleStreamCount" [],
    pubMember "bool" "captureVideo" [],
    pubMember "VideoCapture*" "videoCapture" [],
    pubMember "bool" "play" [par "const QString&" "path"],
    pubMember "bool" "isPlaying" [],
    pubMember "bool" "isPaused" [],
    pubMember "State" "state" [],
    pubMember "void" "setState" [par "State" "value"],
    pubMember "void" "addVideoRenderer" [par "VideoRenderer*" "renderer"],
    pubMember "void" "removeVideoRenderer" [par "VideoRenderer*" "renderer"],
    pubMember "void" "clearVideoRenderers" [],
    pubMember "void" "setRenderer" [par "VideoRenderer*" "renderer"],
    pubMember "VideoRenderer*" "renderer" [],
    pubMember "QList<VideoRenderer*>" "videoOutputs" [],
    pubMember "AudioOutput*" "audio" [],
    pubMember "void" "setSpeed" [par "qreal" "speed"],
    pubMember "qreal" "speed" [],
    pubMember "void" "setInterruptTimeout" [par "qint64" "ms"],
    pubMember "qint64" "interruptTimeout" [],
    pubMember "void" "setInterruptOnTimeout" [par "bool" "value"],
    pubMember "bool" "isInterruptOnTimeout" [],
    pubMember "void" "setFrameRate" [par "qreal" "value"],
    pubMember "qreal" "forcedFrameRate" [],
    pubMember "const Statistics&" "statistics" [],
    pubMember "bool" "installAudioFilter" [par "Filter*" "filter"],
    pubMember "bool" "installVideoFilter" [par "Filter*" "filter"],
    pubMember "bool" "uninstallFilter" [par "Filter*" "filter"],
    pubMember "bool" "installFilter"
      [par "AudioFilter*" "filter", parDflt "int" "index" "0x7FFFFFFF"],
    pubMember "bool" "installFilter"
      [par "VideoFilter*" "filter", parDflt "int" "index" "0x7FFFFFFF"],
    pubMember "bool" "uninstallFilter" [par "AudioFilter*" "filter"],
    pubMember "bool" "uninstallFilter" [par "VideoFilter*" "filter"],
    pubMember "QList<Filter*>" "audioFilters" [],
    pubMember "QList<Filter*>" "videoFilters" [],
    pubMember "void" "setPriority" [par "const QVector<VideoDecoderId>&" "ids"],
    pubMember "void" "setVideoDecoderPriority" [par "const QStringList&" "names"],
    pubMember "QStringList" "videoDecoderPriority" [],
    pubMember "int" "brightness" [],
    pubMember "int" "contrast" [],
    pubMember "int" "hue" [],
    pubMember "int" "saturation" [],
    pubMember "void" "setOptionsForFormat" [par "const QVariantHash&" "dict"],
    pubMember "QVariantHash" "optionsForFormat" [],
    pubMember "void" "setOptionsForAudioCodec" [par "const QVariantHash&" "dict"],
    pubMember "QVariantHash" "optionsForAudioCodec" [],
    pubMember "void" "setOptionsForVideoCodec" [par "const QVariantHash&" "dict"],
    pubMember "QVariantHash" "optionsForVideoCodec" [] ]

/-- Member functions under `public slots:` (lines 381-481). -/
def AVPlayer.publicSlots : List Member :=
  [ pubSlot "void" "togglePause" [],
    pubSlot "void" "pause" [parDflt "bool" "p" "true"],
    pubSlot "void" "play" [],
    pubSlot "void" "stop" [],
    pubSlot "void" "playNextFrame" [],
    pubSlot "void" "stepForward" [],
    pubSlot "void" "stepBackward" [],
    pubSlot "void" "setRelativeTimeMode" [par "bool" "value"],
    pubSlot "void" "setRepeat" [par "int" "max"],
    pubSlot "void" "setStartPosition" [par "qint64" "pos"],
    pubSlot "void" "setStopPosition" [par "qint64" "pos"],
    pubSlot "bool" "isSeekable" [],
    pubSlot "void" "setPosition" [par "qint64" "position"],
    pubSlot "void" "seek" [par "qreal" "r"],
    pubSlot "void" "seek" [par "qint64" "pos"],
    pubSlot "void" "seekForward" [],
    pubSlot "void" "seekBackward" [],
    pubSlot "void" "setSeekType" [par "SeekType" "type"],
    pubSlot "SeekType" "seekType" [],
    pubSlot "qreal" "bufferProgress" [],
    pubSlot "qint64" "buffered" [],
    pubSlot "void" "setBufferMode" [par "BufferMode" "mode"],
    pubSlot "BufferMode" "bufferMode" [],
    pubSlot "void" "setBufferValue" [par "qint64" "value"],
    pubSlot "int" "bufferValue" [],
    pubSlot "void" "setNotifyInterval" [par "int" "msec"],
    pubSlot "int" "notifyInterval" [],
    pubSlot "void" "updateClock" [par "qint64" "msecs"],
    pubSlot "void" "setBrightness" [par "int" "val"],
    pubSlot "void" "setContrast" [par "int" "val"],
    pubSlot "void" "setHue" [par "int" "val"],
    pubSlot "void" "setSaturation" [par "int" "val"] ]

/-- Member functions under `Q_SIGNALS:` (lines 483-530). -/
def AVPlayer.signals : List Member :=
  [ sig "void" "bufferProgressChanged" [par "qreal" ""],
    sig "void" "relativeTimeModeChanged" [],
    sig "void" "autoLoadChanged" [],
    sig "void" "asyncLoadChanged" [],
    sig "void" "muteChanged" [],
    sig "void" "sourceChanged" [],
    sig "void" "loaded" [],
    sig "void" "mediaStatusChanged" [par "QtAV::MediaStatus" "status"],
    sig "void" "durationChanged" [par "qint64" ""],
    sig "void" "error" [par "const QtAV::AVError&" "e"],
    sig "void" "paused" [par "bool" "p"],
    sig "void" "started" [],
    sig "void" "stopped" [],
    sig "void" "stateChanged" [par "QtAV::AVPlayer::State" "state"],
    sig "void" "speedChanged" [par "qreal" "speed"],
    sig "void" "repeatChanged" [par "int" "r"],
    sig "void" "currentRepeatChanged" [par "int" "r"],
    sig "void" "startPositionChanged" [par "qint64" "position"],
    sig "void" "stopPositionChanged" [par "qint64" "position"],
    sig "void" "seekableChanged" [],
    sig "void" "seekFinished" [],
    sig "void" "positionChanged" [par "qint64" "position"],
    sig "void" "interruptTimeoutChanged" [],
    sig "void" "interruptOnTimeoutChanged" [],
    sig "void" "notifyIntervalChanged" [],
    sig "void" "brightnessChanged" [par "int" "val"],
    sig "void" "contrastChanged" [par "int" "val"],
    sig "void" "hueChanged" [par "int" "val"],
    sig "void" "saturationChanged" [par "int" "val"],
    sig "void" "subtitleStreamChanged" [par "int" "value"],
    sig "void" "internalAudioTracksChanged" [par "const QVariantList&" "tracks"],
    sig "void" "externalAudioTracksChanged" [par "const QVariantList&" "tracks"],
    sig "void" "internalSubtitleTracksChanged" [par "const QVariantList&" "tracks"],
    sig "void" "internalSubtitleHeaderRead"
      [par "const QByteArray&" "codec", par "const QByteArray&" "data"],
    sig "void" "internalSubtitlePacketRead"
      [par "int" "track", par "const QtAV::Packet&" "packet"] ]

/-- Member functions under `private Q_SLOTS:` (lines 531-542). -/
def AVPlayer.privateSlots : List Member :=
  [ privSlot "void" "loadInternal" [],
    privSlot "void" "playInternal" [],
    privSlot "void" "loadAndPlay" [],
    privSlot "void" "stopFromDemuxerThread" [],
    privSlot "void" "aboutToQuitApp" [],
    privSlot "void" "startNotifyTimer" [],
    privSlot "void" "stopNotifyTimer" [],
    privSlot "void" "onStarted" [],
    privSlot "void" "updateMediaStatus" [par "QtAV::MediaStatus" "status"],
    privSlot "void" "onSeekFinished" [] ]

/-- Member function under `protected:` (line 545). -/
def AVPlayer.protectedMembers : List Member :=
  [ protMember "void" "timerEvent" [par "QTimerEvent*" ""] ]

/-- All member functions the class declares. -/
def AVPlayer.members : List Member :=
  AVPlayer.publicMembers ++ AVPlayer.publicSlots ++ AVPlayer.signals ++
    AVPlayer.privateSlots ++ AVPlayer.protectedMembers

/-- Whether the class declares a member function of that name. -/
def AVPlayer.declares (n : String) : Bool :=
  AVPlayer.members.any (fun m => m.name == n)

/-- Whether the class declares a member function of that name under `Q_SIGNALS:`. -/
def AVPlayer.declaresSignal (n : String) : Bool :=
  AVPlayer.members.any (fun m => m.name == n && decide (m.sect = Sect.signal))

/-- Check of one `Q_PROPERTY` line: it names a READ accessor the class
declares and a NOTIFY signal the class declares under `Q_SIGNALS:`, and
its WRITE setter, if it names one, is declared too. -/
def AVPlayer.propertyBacked (p : QProperty) : Bool :=
  (match p.read with
    | some r => AVPlayer.declares r
    | none => false) &&
  (match p.write with
    | some s => AVPlayer.declares s
    | none => true) &&
  (match p.notify with
    | some n => AVPlayer.declaresSignal n
    | none => false)

/-- One enumerator of an `enum` declaration, with its initialiser if any. -/
structure Enumerator where
  name : String
  init : Option Int
  deriving DecidableEq, Repr

/-- Source: `enum State { StoppedState, PlayingState, PausedState };` (lines 68-72). -/
def AVPlayer.State : List Enumerator :=
  [ { name := "StoppedState", init := none },
    { name := "PlayingState", init := none },
    { name := "PausedState", init := none } ]

/-- Values of the enumerators of an `enum`, by the C++ rule: an enumerator
with an initialiser has that value; without one, the first has value 0 and
any other the value of its predecessor plus one. `next` is the value an
enumerator without initialiser gets. -/
def enumValues (next : Int) : List Enumerator → List (String × Int)
  | [] => []
  | e :: es =>
    match e.init with
    | some v => (e.name, v) :: enumValues (v + 1) es
    | none => (e.name, next) :: enumValues (next + 1) es

/-! ### Default argument of `installFilter` (lines 315-324) -/

/-- Value of one digit of a C++ integer literal, from its character code:
`0`-`9`, `A`-`F`, `a`-`f`. -/
def digitValue (c : Nat) : Option Nat :=
  if 48 ≤ c ∧ c ≤ 57 then some (c - 48)
  else if 65 ≤ c ∧ c ≤ 70 then some (c - 55)
  else if 97 ≤ c ∧ c ≤ 102 then some (c - 87)
  else none

/-- Value of a digit sequence in the given base, most significant digit first. -/
def parseDigits (base : Nat) : List Nat → Nat → Option Nat
  | [], acc => some acc
  | c :: cs, acc =>
    match digitValue c with
    | some d => if d < base then parseDigits base cs (acc * base + d) else none
    | none => none

/-- Value of a C++ integer literal without suffix: hexadecimal after `0x` or
`0X`, octal after a leading `0`, decimal otherwise. -/
def parseIntLiteral (s : String) : Option Nat :=
  match s.data.map Char.toNat with
  | [] => none
  | [48] => some 0
  | 48 :: 120 :: d :: ds => parseDigits 16 (d :: ds) 0
  | 48 :: 88 :: d :: ds => parseDigits 16 (d :: ds) 0
  | 48 :: d :: ds => parseDigits 8 (d :: ds) 0
  | cs => parseDigits 10 cs 0

/-- Largest value of `int`, which is 32 bits wide on every platform Qt runs on. -/
def INT_MAX : Int := 2 ^ 31 - 1

/-- The overloads of `installFilter` the class declares. -/
def AVPlayer.installFilterOverloads : List Member :=
  AVPlayer.members.filter (fun m => m.name == "installFilter")

/-- Default argument of the parameter `index` of a member function, as a number. -/
def Member.defaultIndex (m : Member) : Option Int :=
  match m.params.find? (fun q => q.name == "index") with
  | some q =>
    match q.dflt with
    | some d => (parseIntLiteral d).map Int.ofNat
    | none => none
  | none => none

/-- The three cases the documentation of `installFilter` distinguishes for `index`. -/
inductive IndexCase
  /-- negative index: counted from the end, `size() + index` -/
  | fromEnd
  /-- index at least `size()`: append at last -/
  | append
  /-- any other index: insert at that position -/
  | position
  deriving DecidableEq, Repr

/-- Modelled from the spec: the body of `AVPlayer::installFilter` is not among
the sources, only its declaration is; this is the case distinction its
documentation comment states (`A nagative index == size() + index. If index >=
size(), append at last`). -/
def indexCase (size index : Int) : IndexCase :=
  if index < 0 then .fromEnd
  else if index ≥ size then .append
  else .position

/-! ### Types of the properties and of their accessors -/

/-- Last component of a possibly qualified type name: `QtAV::AVPlayer::State`
and `State` name the same type inside `class AVPlayer`. -/
def unqualified (t : String) : String :=
  String.mk (t.data.reverse.takeWhile (fun c => c ≠ ':')).reverse

/-- Whether two type names of the header name the same type. -/
def sameType (t u : String) : Bool :=
  unqualified t == unqualified u

/-- Return type of the READ accessor of a property: the member function of
that name without parameters. -/
def AVPlayer.readType (p : QProperty) : Option String :=
  match p.read with
  | some r =>
    match AVPlayer.members.find? (fun m => m.name == r && m.params.isEmpty) with
    | some m => some m.ret
    | none => none
  | none => none

/-- Parameter type of the WRITE setter of a property: the member function of
that name with one parameter. -/
def AVPlayer.writeType (p : QProperty) : Option String :=
  match p.write with
  | some s =>
    match AVPlayer.members.find? (fun m => m.name == s && m.params.length == 1) with
    | some m => m.params.head?.map Param.ty
    | none => none
  | none => none

/-- Parameter type of the NOTIFY signal of a property, when the signal of
that name carries a value. -/
def AVPlayer.notifyType (p : QProperty) : Option String :=
  match p.notify with
  | some n =>
    match AVPlayer.signals.find? (fun m => m.name == n) with
    | some m => m.params.head?.map Param.ty
    | none => none
  | none => none

/-- Whether the declared type of a property is the return type of its READ
accessor, the parameter type of its WRITE setter where it has one, and the
parameter type of its NOTIFY signal where that carries a value. -/
def AVPlayer.typesAgree (p : QProperty) : Bool :=
  (match AVPlayer.readType p with
    | some t => sameType t p.ty
    | none => false) &&
  (match p.write with
    | some _ =>
      match AVPlayer.writeType p with
      | some t => sameType t p.ty
      | none => false
    | none => true) &&
  (match AVPlayer.notifyType p with
    | some t => sameType t p.ty
    | none => true)

/-- The `Q_PROPERTY` line of `repeat` (line 57). -/
def AVPlayer.repeatProperty : QProperty :=
  { ty := "qint64", name := "repeat", read := some "repeat", write := some "setRepeat",
    notify := some "repeatChanged" }

end QtAV

/-! ## Theorems -/

namespace Qxt

variable {F : Type}

/-! ### What each operation does when it returns -/

theorem World.lookup_of_ne_zero (w : World F) {a : Ptr} (h : a ≠ 0) :
    w.lookup a = w.heap a := by
  simp [World.lookup, h]

theorem World.lookup_isSome {w : World F} {a : Ptr} (h : (w.lookup a).isSome = true) :
    a ≠ 0 ∧ (w.heap a).isSome = true := by
  unfold World.lookup at h
  by_cases h0 : a = 0
  · simp [h0] at h
  · simp only [h0, if_false] at h
    exact ⟨h0, h⟩

theorem World.mem_livePrivate {w : World F} {a : Ptr} :
    a ∈ w.livePrivate ↔ a ≠ 0 ∧ (w.heap a).isSome = true := by
  constructor
  · intro h
    exact World.lookup_isSome h
  · rintro ⟨h0, h⟩
    show (w.lookup a).isSome = true
    rw [w.lookup_of_ne_zero h0]
    exact h

theorem World.construct_ok (w : World F) (i a : Ptr) (v : F)
    (hi : w.ifaces i = none) (ha : a ≠ 0) (hf : w.heap a = none) :
    w.construct i a v = .ok
      { pubs := w.pubs
        heap := Function.update w.heap a (some { qxt_p_ptr := none, members := v })
        ifaces := Function.update w.ifaces i (some a) } := by
  simp [World.construct, World.new_PVT, hi, ha, hf]

theorem World.construct_inv {w w1 : World F} {i a : Ptr} {v : F}
    (h : w.construct i a v = .ok w1) :
    w.ifaces i = none ∧ a ≠ 0 ∧ w.heap a = none ∧
    w1 = { pubs := w.pubs
           heap := Function.update w.heap a (some { qxt_p_ptr := none, members := v })
           ifaces := Function.update w.ifaces i (some a) } := by
  cases hi : w.ifaces i with
  | some p => simp [World.construct, hi] at h
  | none =>
    by_cases ha : a = 0
    · simp [World.construct, hi, World.new_PVT, ha] at h
    · cases hf : w.heap a with
      | some o => simp [World.construct, hi, World.new_PVT, hf] at h
      | none =>
        rw [w.construct_ok i a v hi ha hf] at h
        exact ⟨rfl, ha, rfl, (Except.ok.inj h).symm⟩

theorem World.QXT_setPublic_ok (w : World F) (a pub : Ptr) (o : QxtPrivate F)
    (ha : a ≠ 0) (ho : w.heap a = some o) :
    w.QXT_setPublic a pub = .ok
      { pubs := w.pubs
        heap := Function.update w.heap a (some { qxt_p_ptr := some pub, members := o.members })
        ifaces := w.ifaces } := by
  simp [World.QXT_setPublic, World.lookup, ha, ho, QxtPrivate.QXT_setPublic]

theorem World.QXT_setPublic_inv {w w1 : World F} {a pub : Ptr}
    (h : w.QXT_setPublic a pub = .ok w1) :
    ∃ o, a ≠ 0 ∧ w.heap a = some o ∧
      w1 = { pubs := w.pubs
             heap := Function.update w.heap a
               (some { qxt_p_ptr := some pub, members := o.members })
             ifaces := w.ifaces } := by
  by_cases ha : a = 0
  · simp [World.QXT_setPublic, World.lookup, ha] at h
  · cases ho : w.heap a with
    | none => simp [World.QXT_setPublic, World.lookup, ha, ho] at h
    | some o =>
      rw [w.QXT_setPublic_ok a pub o ha ho] at h
      exact ⟨o, ha, rfl, (Except.ok.inj h).symm⟩

theorem World.setPublic_inv {w w1 : World F} {i pub : Ptr}
    (h : w.setPublic i pub = .ok w1) :
    ∃ a, w.ifaces i = some a ∧ w.QXT_setPublic a pub = .ok w1 := by
  cases hi : w.ifaces i with
  | none => simp [World.setPublic, hi] at h
  | some a =>
    refine ⟨a, rfl, ?_⟩
    simpa [World.setPublic, hi] using h

theorem World.destruct_ok (w : World F) (i a : Ptr) (o : QxtPrivate F)
    (hi : w.ifaces i = some a) (ha : a ≠ 0) (ho : w.heap a = some o) :
    w.destruct i = .ok
      { pubs := w.pubs
        heap := Function.update w.heap a none
        ifaces := Function.update w.ifaces i none } := by
  simp [World.destruct, World.delete, hi, ha, ho]

theorem World.destruct_inv {w w1 : World F} {i : Ptr}
    (h : w.destruct i = .ok w1) :
    ∃ a, w.ifaces i = some a ∧ w1.pubs = w.pubs ∧
      w1.ifaces = Function.update w.ifaces i none ∧
      ((a = 0 ∧ w1.heap = w.heap) ∨
       (a ≠ 0 ∧ (w.heap a).isSome = true ∧ w1.heap = Function.update w.heap a none)) := by
  cases hi : w.ifaces i with
  | none => simp [World.destruct, hi] at h
  | some a =>
    refine ⟨a, rfl, ?_⟩
    by_cases ha : a = 0
    · simp only [World.destruct, hi, World.delete, ha, if_true] at h
      have := (Except.ok.inj h).symm
      subst this
      exact ⟨rfl, rfl, Or.inl ⟨ha, rfl⟩⟩
    · cases ho : w.heap a with
      | none => simp [World.destruct, hi, World.delete, ha, ho] at h
      | some o =>
        rw [w.destruct_ok i a o hi ha ho] at h
        have := (Except.ok.inj h).symm
        subst this
        exact ⟨rfl, rfl, Or.inr ⟨ha, by simp [ho], rfl⟩⟩

theorem World.observe_inv {α : Type} {w w1 : World F} {r : Except Fault α}
    (h : w.observe r = .ok w1) : w1 = w ∧ ∃ x, r = .ok x := by
  cases r with
  | error e => simp [World.observe] at h
  | ok x =>
    simp only [World.observe] at h
    exact ⟨(Except.ok.inj h).symm, x, rfl⟩

/-! ### The ownership invariant -/

theorem World.Inv_init (pubs : Ptr → Bool) : (World.init pubs : World F).Inv := by
  constructor
  · intro i a h
    simp [World.init] at h
  · intro i j a h
    simp [World.init] at h

theorem World.Inv.heap_isSome {w : World F} (hinv : w.Inv) {i a : Ptr}
    (h : w.ifaces i = some a) : a ≠ 0 ∧ (w.heap a).isSome = true :=
  World.lookup_isSome (hinv.1 i a h)

theorem World.Inv.construct {w w1 : World F} {i a : Ptr} {v : F} (hinv : w.Inv)
    (h : w.construct i a v = .ok w1) : w1.Inv := by
  obtain ⟨hi, ha, hf, rfl⟩ := World.construct_inv h
  have fresh : ∀ j, w.ifaces j ≠ some a := by
    intro j hj
    have := (hinv.heap_isSome hj).2
    simp [hf] at this
  constructor
  · intro j b hj
    show (World.lookup _ b).isSome = true
    by_cases hji : j = i
    · subst hji
      simp only [Function.update_same, Option.some.injEq] at hj
      subst hj
      simp [World.lookup, ha]
    · simp only [Function.update_noteq hji] at hj
      have hb := hinv.heap_isSome hj
      have hba : b ≠ a := by
        rintro rfl
        exact fresh j hj
      simpa [World.lookup, hb.1, Function.update_noteq hba] using hb.2
  · intro j k b hj hk
    by_cases hji : j = i
    · by_cases hki : k = i
      · rw [hji, hki]
      · subst hji
        simp only [Function.update_same, Option.some.injEq] at hj
        subst hj
        simp only [Function.update_noteq hki] at hk
        exact absurd hk (fresh k)
    · by_cases hki : k = i
      · subst hki
        simp only [Function.update_same, Option.some.injEq] at hk
        subst hk
        simp only [Function.update_noteq hji] at hj
        exact absurd hj (fresh j)
      · simp only [Function.update_noteq hji] at hj
        simp only [Function.update_noteq hki] at hk
        exact hinv.2 j k b hj hk

theorem World.Inv.destruct {w w1 : World F} {i : Ptr} (hinv : w.Inv)
    (h : w.destruct i = .ok w1) : w1.Inv := by
  obtain ⟨a, hi, -, hif, hheap⟩ := World.destruct_inv h
  have key : ∀ j b, w1.ifaces j = some b → j ≠ i ∧ w.ifaces j = some b := by
    intro j b hj
    rw [hif] at hj
    by_cases hji : j = i
    · subst hji
      simp at hj
    · exact ⟨hji, by simpa [Function.update_noteq hji] using hj⟩
  constructor
  · intro j b hj
    obtain ⟨hji, hjb⟩ := key j b hj
    have hb := hinv.heap_isSome hjb
    have hba : b ≠ a := by
      rintro rfl
      exact hji (hinv.2 j i b hjb hi)
    rcases hheap with ⟨-, hh⟩ | ⟨-, -, hh⟩
    · simpa [World.lookup, hb.1, hh] using hb.2
    · simpa [World.lookup, hb.1, hh, Function.update_noteq hba] using hb.2
  · intro j k b hj hk
    exact hinv.2 j k b (key j b hj).2 (key k b hk).2

theorem World.Inv.QXT_setPublic {w w1 : World F} {a pub : Ptr} (hinv : w.Inv)
    (h : w.QXT_setPublic a pub = .ok w1) : w1.Inv := by
  obtain ⟨o, ha, ho, rfl⟩ := World.QXT_setPublic_inv h
  constructor
  · intro j b hj
    have hb := hinv.heap_isSome (show w.ifaces j = some b from hj)
    show (World.lookup _ b).isSome = true
    by_cases hba : b = a
    · subst hba
      simp [World.lookup, ha]
    · simpa [World.lookup, hb.1, Function.update_noteq hba] using hb.2
  · intro j k b hj hk
    exact hinv.2 j k b hj hk

theorem World.Inv.step {w w1 : World F} {op : Op F} (hinv : w.Inv)
    (h : w.step op = .ok w1) : w1.Inv := by
  cases op with
  | construct i a v => exact hinv.construct h
  | destruct i => exact hinv.destruct h
  | setPublic i pub =>
    obtain ⟨a, -, ha⟩ := World.setPublic_inv h
    exact hinv.QXT_setPublic ha
  | QXT_setPublic a pub => exact hinv.QXT_setPublic h
  | call i => rw [(World.observe_inv h).1]; exact hinv
  | call_const i => rw [(World.observe_inv h).1]; exact hinv
  | arrow i => rw [(World.observe_inv h).1]; exact hinv
  | arrow_const i => rw [(World.observe_inv h).1]; exact hinv
  | qxt_p a => rw [(World.observe_inv h).1]; exact hinv
  | qxt_p_const a => rw [(World.observe_inv h).1]; exact hinv
  | qxt_ptr a => rw [(World.observe_inv h).1]; exact hinv
  | qxt_ptr_const a => rw [(World.observe_inv h).1]; exact hinv

theorem World.run_cons_inv {w w2 : World F} {op : Op F} {ops : List (Op F)}
    (h : w.run (op :: ops) = .ok w2) :
    ∃ w1, w.step op = .ok w1 ∧ w1.run ops = .ok w2 := by
  cases hs : w.step op with
  | error e => simp [World.run, hs] at h
  | ok w1 =>
    refine ⟨w1, rfl, ?_⟩
    simpa [World.run, hs] using h

theorem World.Inv.run {w w1 : World F} {ops : List (Op F)} (hinv : w.Inv)
    (h : w.run ops = .ok w1) : w1.Inv := by
  induction ops generalizing w with
  | nil =>
    simp only [World.run] at h
    rw [← Except.ok.inj h]
    exact hinv
  | cons op ops ih =>
    obtain ⟨w', hs, hr⟩ := World.run_cons_inv h
    exact ih (hinv.step hs) hr

theorem Reachable.inv {w : World F} (h : Reachable w) : w.Inv := by
  obtain ⟨pubs, ops, hrun⟩ := h
  exact (World.Inv_init pubs).run hrun

/-! ### Member functions of a live interface -/

theorem World.Inv.access {w : World F} (hinv : w.Inv) {i a : Ptr}
    (hi : w.ifaces i = some a) :
    w.call i = .ok a ∧ w.call_const i = .ok a ∧
    w.arrow i = .ok a ∧ w.arrow_const i = .ok a := by
  have hl := hinv.1 i a hi
  cases ho : w.lookup a with
  | none => simp [ho] at hl
  | some o => simp [World.call, World.call_const, World.arrow, World.arrow_const, hi, ho]

theorem World.Inv.setPublic_ok {w : World F} (hinv : w.Inv) {i a : Ptr}
    (hi : w.ifaces i = some a) (pub : Ptr) :
    ∃ o, a ≠ 0 ∧ w.heap a = some o ∧
      w.setPublic i pub = .ok
        { pubs := w.pubs
          heap := Function.update w.heap a
            (some { qxt_p_ptr := some pub, members := o.members })
          ifaces := w.ifaces } := by
  obtain ⟨ha, hs⟩ := hinv.heap_isSome hi
  cases ho : w.heap a with
  | none => simp [ho] at hs
  | some o =>
    refine ⟨o, ha, rfl, ?_⟩
    simp only [World.setPublic, hi]
    exact w.QXT_setPublic_ok a pub o ha ho

theorem World.qxt_of_heap (w : World F) {a p : Ptr} {m : F} (ha : a ≠ 0)
    (h : w.heap a = some { qxt_p_ptr := some p, members := m }) :
    w.qxt_ptr a = .ok p ∧ w.qxt_ptr_const a = .ok p ∧
    w.qxt_p a = derefPub w p ∧ w.qxt_p_const a = derefPub w p := by
  simp [World.qxt_ptr, World.qxt_ptr_const, World.qxt_p, World.qxt_p_const,
    World.onPrivate, World.lookup, ha, h, QxtPrivate.qxt_ptr, QxtPrivate.qxt_ptr_const,
    QxtPrivate.qxt_p, QxtPrivate.qxt_p_const]

theorem World.qxt_ptr_inv {w : World F} {a p : Ptr} (h : w.qxt_ptr a = .ok p) :
    a ≠ 0 ∧ ∃ m, w.heap a = some { qxt_p_ptr := some p, members := m } := by
  by_cases ha : a = 0
  · simp [World.qxt_ptr, World.onPrivate, World.lookup, ha] at h
  · refine ⟨ha, ?_⟩
    cases ho : w.heap a with
    | none => simp [World.qxt_ptr, World.onPrivate, World.lookup, ha, ho] at h
    | some o =>
      obtain ⟨q, m⟩ := o
      cases q with
      | none =>
        simp [World.qxt_ptr, World.onPrivate, World.lookup, ha, ho, QxtPrivate.qxt_ptr] at h
      | some q =>
        simp [World.qxt_ptr, World.onPrivate, World.lookup, ha, ho, QxtPrivate.qxt_ptr] at h
        subst h
        exact ⟨m, rfl⟩

theorem World.step_ifaces {w w1 : World F} {op : Op F} {i a : Ptr}
    (h : w.step op = .ok w1) (hi : w.ifaces i = some a)
    (hd : op.destroys i = false) : w1.ifaces i = some a := by
  cases op with
  | construct j b v =>
    obtain ⟨hj, -, -, rfl⟩ := World.construct_inv h
    have hji : i ≠ j := by
      rintro rfl
      simp [hj] at hi
    simpa [Function.update_noteq hji] using hi
  | destruct j =>
    obtain ⟨b, -, -, hif, -⟩ := World.destruct_inv h
    have hji : i ≠ j := by
      rintro rfl
      simp [Op.destroys] at hd
    rw [hif]
    simpa [Function.update_noteq hji] using hi
  | setPublic j pub =>
    obtain ⟨b, -, hb⟩ := World.setPublic_inv h
    obtain ⟨o, -, -, rfl⟩ := World.QXT_setPublic_inv hb
    exact hi
  | QXT_setPublic b pub =>
    obtain ⟨o, -, -, rfl⟩ := World.QXT_setPublic_inv h
    exact hi
  | call j => rw [(World.observe_inv h).1]; exact hi
  | call_const j => rw [(World.observe_inv h).1]; exact hi
  | arrow j => rw [(World.observe_inv h).1]; exact hi
  | arrow_const j => rw [(World.observe_inv h).1]; exact hi
  | qxt_p b => rw [(World.observe_inv h).1]; exact hi
  | qxt_p_const b => rw [(World.observe_inv h).1]; exact hi
  | qxt_ptr b => rw [(World.observe_inv h).1]; exact hi
  | qxt_ptr_const b => rw [(World.observe_inv h).1]; exact hi

theorem World.run_ifaces {w w1 : World F} {ops : List (Op F)} {i a : Ptr}
    (h : w.run ops = .ok w1) (hi : w.ifaces i = some a)
    (hd : ∀ op ∈ ops, op.destroys i = false) : w1.ifaces i = some a := by
  induction ops generalizing w with
  | nil =>
    simp only [World.run] at h
    rw [← Except.ok.inj h]
    exact hi
  | cons op ops ih =>
    obtain ⟨w', hs, hr⟩ := World.run_cons_inv h
    exact ih hr (World.step_ifaces hs hi (hd op (List.mem_cons_self _ _)))
      (fun o ho => hd o (List.mem_cons_of_mem _ ho))

/-! ### Sequences of `setPublic` and dereference calls -/

theorem World.SameShape.refl (w : World F) : w.SameShape w :=
  ⟨rfl, rfl, fun _ => rfl⟩

theorem World.SameShape.trans {w w1 w2 : World F} (h1 : w.SameShape w1)
    (h2 : w1.SameShape w2) : w.SameShape w2 :=
  ⟨h2.1.trans h1.1, h2.2.1.trans h1.2.1, fun a => (h2.2.2 a).trans (h1.2.2 a)⟩

theorem World.SameShape.livePrivate {w w1 : World F} (h : w.SameShape w1) :
    w1.livePrivate = w.livePrivate := by
  ext a
  have := congrArg Option.isSome (h.2.2 a)
  simp only [Option.isSome_map'] at this
  simp only [World.mem_livePrivate, this]

theorem World.SameShape.of_QXT_setPublic {w w1 : World F} {a pub : Ptr}
    (h : w.QXT_setPublic a pub = .ok w1) : w.SameShape w1 := by
  obtain ⟨o, ha, ho, rfl⟩ := World.QXT_setPublic_inv h
  refine ⟨rfl, rfl, fun b => ?_⟩
  by_cases hba : b = a
  · subst hba
    simp [ho]
  · simp [Function.update_noteq hba]

theorem World.SameShape.of_access {w w1 : World F} {op : Op F} {j : Ptr}
    (hop : op.accessOf = some j) (h : w.step op = .ok w1) : w.SameShape w1 := by
  cases op with
  | setPublic i pub =>
    obtain ⟨a, -, ha⟩ := World.setPublic_inv h
    exact World.SameShape.of_QXT_setPublic ha
  | call i => rw [(World.observe_inv h).1]; exact World.SameShape.refl w
  | call_const i => rw [(World.observe_inv h).1]; exact World.SameShape.refl w
  | arrow i => rw [(World.observe_inv h).1]; exact World.SameShape.refl w
  | arrow_const i => rw [(World.observe_inv h).1]; exact World.SameShape.refl w
  | construct i a v => simp [Op.accessOf] at hop
  | destruct i => simp [Op.accessOf] at hop
  | QXT_setPublic a pub => simp [Op.accessOf] at hop
  | qxt_p a => simp [Op.accessOf] at hop
  | qxt_p_const a => simp [Op.accessOf] at hop
  | qxt_ptr a => simp [Op.accessOf] at hop
  | qxt_ptr_const a => simp [Op.accessOf] at hop

theorem World.Inv.access_step_ok {w : World F} (hinv : w.Inv) {op : Op F} {j : Ptr}
    (hop : op.accessOf = some j) (hj : j ∈ w.liveIfaces) :
    ∃ w1, w.step op = .ok w1 := by
  have hj' : (w.ifaces j).isSome = true := hj
  obtain ⟨a, ha⟩ := Option.isSome_iff_exists.mp hj'
  obtain ⟨h1, h2, h3, h4⟩ := hinv.access ha
  cases op with
  | setPublic i pub =>
    simp only [Op.accessOf, Option.some.injEq] at hop
    subst hop
    obtain ⟨o, -, -, h⟩ := hinv.setPublic_ok ha pub
    exact ⟨_, h⟩
  | call i =>
    simp only [Op.accessOf, Option.some.injEq] at hop
    subst hop
    exact ⟨w, by simp [World.step, h1, World.observe]⟩
  | call_const i =>
    simp only [Op.accessOf, Option.some.injEq] at hop
    subst hop
    exact ⟨w, by simp [World.step, h2, World.observe]⟩
  | arrow i =>
    simp only [Op.accessOf, Option.some.injEq] at hop
    subst hop
    exact ⟨w, by simp [World.step, h3, World.observe]⟩
  | arrow_const i =>
    simp only [Op.accessOf, Option.some.injEq] at hop
    subst hop
    exact ⟨w, by simp [World.step, h4, World.observe]⟩
  | construct i a v => simp [Op.accessOf] at hop
  | destruct i => simp [Op.accessOf] at hop
  | QXT_setPublic a pub => simp [Op.accessOf] at hop
  | qxt_p a => simp [Op.accessOf] at hop
  | qxt_p_const a => simp [Op.accessOf] at hop
  | qxt_ptr a => simp [Op.accessOf] at hop
  | qxt_ptr_const a => simp [Op.accessOf] at hop

theorem World.Inv.access_run_ok {w : World F} (hinv : w.Inv) (ops : List (Op F))
    (hops : ∀ op ∈ ops, ∃ j, op.accessOf = some j ∧ j ∈ w.liveIfaces) :
    ∃ w1, w.run ops = .ok w1 ∧ w.SameShape w1 := by
  induction ops generalizing w with
  | nil => exact ⟨w, rfl, World.SameShape.refl w⟩
  | cons op ops ih =>
    obtain ⟨j, hop, hj⟩ := hops op (List.mem_cons_self _ _)
    obtain ⟨w', hs⟩ := hinv.access_step_ok hop hj
    have hsh := World.SameShape.of_access hop hs
    have hlive : w'.liveIfaces = w.liveIfaces := by
      unfold World.liveIfaces
      rw [hsh.2.1]
    obtain ⟨w1, hr, hsh1⟩ := ih (hinv.step hs) (fun o ho => by
      rw [hlive]
      exact hops o (List.mem_cons_of_mem _ ho))
    exact ⟨w1, by simp [World.run, hs, hr], hsh.trans hsh1⟩

/-! ### The set of live private instances -/

theorem World.livePrivate_update_some (pubs : Ptr → Bool) (heap : Ptr → Option (QxtPrivate F))
    (ifaces : Ptr → Option Ptr) (heap0 : Ptr → Option (QxtPrivate F))
    (ifaces0 : Ptr → Option Ptr)
    {a : Ptr} (ha : a ≠ 0) (o : QxtPrivate F) (hh : heap = Function.update heap0 a (some o)) :
    (World.mk pubs heap ifaces).livePrivate
      = insert a (World.mk pubs heap0 ifaces0).livePrivate := by
  ext b
  simp only [World.mem_livePrivate, Set.mem_insert_iff, hh]
  by_cases hba : b = a
  · subst hba
    simp [ha]
  · simp [Function.update_noteq hba, hba]

theorem World.livePrivate_update_none (pubs : Ptr → Bool) (heap : Ptr → Option (QxtPrivate F))
    (ifaces : Ptr → Option Ptr) (heap0 : Ptr → Option (QxtPrivate F))
    (ifaces0 : Ptr → Option Ptr)
    {a : Ptr} (hh : heap = Function.update heap0 a none) :
    (World.mk pubs heap ifaces).livePrivate
      = (World.mk pubs heap0 ifaces0).livePrivate \ {a} := by
  ext b
  simp only [World.mem_livePrivate, Set.mem_diff, Set.mem_singleton_iff, hh]
  by_cases hba : b = a
  · subst hba
    simp
  · simp [Function.update_noteq hba, hba]

theorem Reachable.sample : Reachable World.sample :=
  ⟨fun p => decide (p = 7 ∨ p = 8), [.construct 10 1 ()], rfl⟩

theorem Reachable.sampleBound : Reachable World.sampleBound :=
  ⟨fun p => decide (p = 7 ∨ p = 8), [.construct 10 1 (), .setPublic 10 7], rfl⟩

theorem Reachable.sample0 : Reachable World.sample0 :=
  ⟨fun p => decide (p = 7 ∨ p = 8), [], rfl⟩

/-! ### Claims on the private-implementation helper -/

/-- C1: in every reachable world, for every live interface `i` (owning the
private instance at `a`) and every public pointer `pub`, `i.setPublic(pub)`
returns, and afterwards `qxt_ptr()` of the private instance, const or not,
returns exactly `pub`, while `qxt_p()`, const or not, is the dereference of
`pub`: the object `pub` points to. -/
theorem C1_setPublic_records_owner (w : World F) (hw : Reachable w) (i a pub : Ptr)
    (hi : w.ifaces i = some a) :
    ∃ w1, w.setPublic i pub = .ok w1 ∧ w1.arrow i = .ok a ∧
      w1.qxt_ptr a = .ok pub ∧ w1.qxt_ptr_const a = .ok pub ∧
      w1.qxt_p a = derefPub w1 pub ∧ w1.qxt_p_const a = derefPub w1 pub := by
  obtain ⟨o, ha, ho, hs⟩ := hw.inv.setPublic_ok hi pub
  refine ⟨_, hs, ?_, ?_⟩
  · simp [World.arrow, hi]
  · exact World.qxt_of_heap _ ha (Function.update_same a _ w.heap)

/-- Witness of C1: binding the sample interface to the `PUB` object at 7. -/
theorem C1_setPublic_records_owner_witness :
    Reachable World.sample ∧ World.sample.ifaces 10 = some 1 ∧
    ∃ w1, World.sample.setPublic 10 7 = .ok w1 ∧ w1.arrow 10 = .ok 1 ∧
      w1.qxt_ptr 1 = .ok 7 ∧ w1.qxt_ptr_const 1 = .ok 7 ∧
      w1.qxt_p 1 = derefPub w1 7 ∧ w1.qxt_p_const 1 = derefPub w1 7 :=
  ⟨Reachable.sample, rfl,
    C1_setPublic_records_owner World.sample Reachable.sample 10 1 7 rfl⟩

/-- C2: when the constructor runs on free storage `i` of a reachable world
and `new PVT` hands out the unused address `a`, it returns; every sequence of
`setPublic`, `operator()` and `operator->` calls on live interfaces then runs
to its end; and after any operations at all that do not destroy `i`,
`operator()` and `operator->`, const or not, all denote the instance at `a`,
which is still the value of `pvt` stored by the constructor. -/
theorem C2_dereference_yields_constructed (w0 : World F) (hw : Reachable w0) (i a : Ptr) (v : F)
    (hi : w0.ifaces i = none) (ha : a ≠ 0) (hf : w0.heap a = none) :
    ∃ w1, w0.construct i a v = .ok w1 ∧ w1.ifaces i = some a ∧
      (∀ ops : List (Op F),
        (∀ op ∈ ops, ∃ j, op.accessOf = some j ∧ j ∈ w1.liveIfaces) →
        ∃ w, w1.run ops = .ok w) ∧
      (∀ (ops : List (Op F)) (w : World F),
        (∀ op ∈ ops, op.destroys i = false) → w1.run ops = .ok w →
        w.ifaces i = some a ∧ w.call i = .ok a ∧ w.call_const i = .ok a ∧
        w.arrow i = .ok a ∧ w.arrow_const i = .ok a) := by
  have hc := w0.construct_ok i a v hi ha hf
  have hinv1 := hw.inv.construct hc
  have hi1 : (World.mk w0.pubs
      (Function.update w0.heap a (some { qxt_p_ptr := none, members := v }))
      (Function.update w0.ifaces i (some a))).ifaces i = some a := by
    simp
  refine ⟨_, hc, hi1, ?_, ?_⟩
  · intro ops hops
    obtain ⟨w, hr, -⟩ := hinv1.access_run_ok ops hops
    exact ⟨w, hr⟩
  · intro ops w hd hr
    have hiw := World.run_ifaces hr hi1 hd
    exact ⟨hiw, (hinv1.run hr).access hiw⟩

/-- Witness of C2: an interface constructed at 10 over the empty sample world. -/
theorem C2_dereference_yields_constructed_witness :
    ∃ w1, World.sample0.construct 10 1 () = .ok w1 ∧ w1.ifaces 10 = some 1 ∧
      (∀ ops : List (Op Unit),
        (∀ op ∈ ops, ∃ j, op.accessOf = some j ∧ j ∈ w1.liveIfaces) →
        ∃ w, w1.run ops = .ok w) ∧
      (∀ (ops : List (Op Unit)) (w : World Unit),
        (∀ op ∈ ops, op.destroys 10 = false) → w1.run ops = .ok w →
        w.ifaces 10 = some 1 ∧ w.call 10 = .ok 1 ∧ w.call_const 10 = .ok 1 ∧
        w.arrow 10 = .ok 1 ∧ w.arrow_const 10 = .ok 1) :=
  C2_dereference_yields_constructed World.sample0 Reachable.sample0 10 1 () rfl
    (by decide) rfl

/-- C3: run on free storage `i` with `new PVT` handing out the non-null
address `a` that holds no live instance, the default constructor returns; the
set of live private instances becomes the old one plus `a`, which was not in
it; interface `i` owns `a` and every other interface keeps what it had. A
constructor call that returns never reuses a live instance, and `setPublic`,
`operator()` and `operator->` (const or not) leave the set of live private
instances as it is. -/
theorem C3_construct_adds_one_instance (w : World F) (i a : Ptr) (v : F)
    (hi : w.ifaces i = none) (ha : a ≠ 0) (hf : a ∉ w.livePrivate) :
    (∃ w1, w.construct i a v = .ok w1 ∧ w1.livePrivate = insert a w.livePrivate ∧
      a ∉ w.livePrivate ∧ w1.ifaces i = some a ∧
      (∀ j, j ≠ i → w1.ifaces j = w.ifaces j)) ∧
    (∀ (w2 w3 : World F) (j b : Ptr) (u : F),
      w2.construct j b u = .ok w3 → b ∉ w2.livePrivate) ∧
    (∀ (w2 w3 : World F) (op : Op F) (j : Ptr),
      op.accessOf = some j → w2.step op = .ok w3 → w3.livePrivate = w2.livePrivate) := by
  have hf' : w.heap a = none := by
    cases ho : w.heap a with
    | none => rfl
    | some o => exact absurd (World.mem_livePrivate.mpr ⟨ha, by simp [ho]⟩) hf
  refine ⟨⟨_, w.construct_ok i a v hi ha hf', ?_, hf, by simp, ?_⟩, ?_, ?_⟩
  · exact World.livePrivate_update_some _ _ _ _ _ ha _ rfl
  · intro j hj
    exact Function.update_noteq hj _ _
  · intro w2 w3 j b u h hb
    obtain ⟨-, -, hnone, -⟩ := World.construct_inv h
    have := (World.mem_livePrivate.mp hb).2
    simp [hnone] at this
  · intro w2 w3 op j hop h
    exact (World.SameShape.of_access hop h).livePrivate

/-- Witness of C3: construction at 10 over the empty sample world. -/
theorem C3_construct_adds_one_instance_witness :
    (∃ w1, World.sample0.construct 10 1 () = .ok w1 ∧
      w1.livePrivate = insert 1 World.sample0.livePrivate ∧
      1 ∉ World.sample0.livePrivate ∧ w1.ifaces 10 = some 1 ∧
      (∀ j, j ≠ 10 → w1.ifaces j = World.sample0.ifaces j)) ∧
    (∀ (w2 w3 : World Unit) (j b : Ptr) (u : Unit),
      w2.construct j b u = .ok w3 → b ∉ w2.livePrivate) ∧
    (∀ (w2 w3 : World Unit) (op : Op Unit) (j : Ptr),
      op.accessOf = some j → w2.step op = .ok w3 → w3.livePrivate = w2.livePrivate) :=
  C3_construct_adds_one_instance World.sample0 10 1 () rfl (by decide)
    (fun h => by simp [World.sample0, World.init, World.mem_livePrivate] at h)

/-- C4: construct an interface on free storage `i` of a reachable world (with
`new PVT` handing out the unused address `a`), apply any sequence of
`setPublic`, `operator()` and `operator->` calls on `i` or on interfaces that
were already live, then destroy `i`: all three stages return, the destructor
removes from the set of live private instances precisely `a`, which was live
until then, and the set is again what it was before construction. -/
theorem C4_destruct_releases_constructed (w : World F) (hw : Reachable w) (i a : Ptr) (v : F)
    (hi : w.ifaces i = none) (ha : a ≠ 0) (hf : w.heap a = none) (ops : List (Op F))
    (hops : ∀ op ∈ ops, ∃ j, op.accessOf = some j ∧ (j = i ∨ j ∈ w.liveIfaces)) :
    ∃ w1 w2 w3, w.construct i a v = .ok w1 ∧ w1.run ops = .ok w2 ∧
      w2.destruct i = .ok w3 ∧ a ∈ w2.livePrivate ∧
      w3.livePrivate = w2.livePrivate \ {a} ∧ w3.livePrivate = w.livePrivate := by
  have hc := w.construct_ok i a v hi ha hf
  have hinv1 := hw.inv.construct hc
  have hops1 : ∀ op ∈ ops, ∃ j, op.accessOf = some j ∧
      j ∈ (World.mk w.pubs
        (Function.update w.heap a (some { qxt_p_ptr := none, members := v }))
        (Function.update w.ifaces i (some a))).liveIfaces := by
    intro op hop
    obtain ⟨j, hj, hlive⟩ := hops op hop
    refine ⟨j, hj, ?_⟩
    show (Function.update w.ifaces i (some a) j).isSome = true
    by_cases hji : j = i
    · subst hji
      simp
    · rcases hlive with h | h
      · exact absurd h hji
      · simpa [Function.update_noteq hji] using h
  obtain ⟨w2, hr, hsh⟩ := hinv1.access_run_ok ops hops1
  have hi2 : w2.ifaces i = some a := by
    rw [hsh.2.1]
    simp
  have hlive2 : w2.livePrivate = insert a w.livePrivate := by
    rw [hsh.livePrivate]
    exact World.livePrivate_update_some _ _ _ _ w.ifaces ha _ rfl
  have ha2 : a ∈ w2.livePrivate := by
    rw [hlive2]
    exact Set.mem_insert a _
  obtain ⟨o, ho⟩ := Option.isSome_iff_exists.mp (World.mem_livePrivate.mp ha2).2
  have hnot : a ∉ w.livePrivate := by
    intro h
    have := (World.mem_livePrivate.mp h).2
    simp [hf] at this
  have h3 : (World.mk w2.pubs (Function.update w2.heap a none)
      (Function.update w2.ifaces i none)).livePrivate = w2.livePrivate \ {a} :=
    World.livePrivate_update_none _ _ _ _ _ rfl
  refine ⟨_, w2, _, hc, hr, w2.destruct_ok i a o hi2 ha ho, ha2, h3, ?_⟩
  rw [h3, hlive2]
  ext b
  simp only [Set.mem_diff, Set.mem_insert_iff, Set.mem_singleton_iff]
  constructor
  · rintro ⟨h | h, hne⟩
    · exact absurd h hne
    · exact h
  · intro h
    refine ⟨Or.inr h, ?_⟩
    rintro rfl
    exact hnot h

/-- Witness of C4: a second interface at 20 constructed over the sample
world, bound twice, dereferenced alongside the interface at 10, destroyed. -/
theorem C4_destruct_releases_constructed_witness :
    ∃ w1 w2 w3, World.sample.construct 20 2 () = .ok w1 ∧
      w1.run [.setPublic 20 7, .call 20, .setPublic 10 8, .arrow_const 10,
        .setPublic 20 8] = .ok w2 ∧
      w2.destruct 20 = .ok w3 ∧ 2 ∈ w2.livePrivate ∧
      w3.livePrivate = w2.livePrivate \ {2} ∧ w3.livePrivate = World.sample.livePrivate :=
  C4_destruct_releases_constructed World.sample Reachable.sample 20 2 () rfl (by decide) rfl
    [.setPublic 20 7, .call 20, .setPublic 10 8, .arrow_const 10, .setPublic 20 8]
    (by
      intro op hop
      simp only [List.mem_cons, List.mem_singleton, List.not_mem_nil, or_false] at hop
      rcases hop with rfl | rfl | rfl | rfl | rfl
      · exact ⟨20, rfl, Or.inl rfl⟩
      · exact ⟨20, rfl, Or.inl rfl⟩
      · exact ⟨10, rfl, Or.inr rfl⟩
      · exact ⟨10, rfl, Or.inr rfl⟩
      · exact ⟨20, rfl, Or.inl rfl⟩)

/-- C5: in every world reached by any interleaving of constructions,
`setPublic` calls, dereferences and destructions (the copy constructor and
the assignment operator are private, so programs contain no copy operation),
two distinct live interfaces own distinct private instances, and both
instances are live. -/
theorem C5_ownership_exclusive (w : World F) (hw : Reachable w) (i j a b : Ptr)
    (hij : i ≠ j) (hi : w.ifaces i = some a) (hj : w.ifaces j = some b) :
    a ≠ b ∧ a ∈ w.livePrivate ∧ b ∈ w.livePrivate := by
  refine ⟨?_, hw.inv.1 i a hi, hw.inv.1 j b hj⟩
  rintro rfl
  exact hij (hw.inv.2 i j a hi hj)

/-- Witness of C5: two interfaces constructed and bound one after the other. -/
theorem C5_ownership_exclusive_witness :
    (1 : Ptr) ≠ 2 ∧ (1 : Ptr) ∈ (World.mk (fun _ => true)
        (Function.update (Function.update (fun _ => none) 1
          (some { qxt_p_ptr := some 7, members := () })) 2
          (some { qxt_p_ptr := none, members := () }))
        (Function.update (Function.update (fun _ => none) 10 (some 1)) 20 (some 2))
          : World Unit).livePrivate ∧
      (2 : Ptr) ∈ (World.mk (fun _ => true)
        (Function.update (Function.update (fun _ => none) 1
          (some { qxt_p_ptr := some 7, members := () })) 2
          (some { qxt_p_ptr := none, members := () }))
        (Function.update (Function.update (fun _ => none) 10 (some 1)) 20 (some 2))
          : World Unit).livePrivate :=
  C5_ownership_exclusive _
    ⟨fun _ => true, [.construct 10 1 (), .setPublic 10 7, .construct 20 2 ()], rfl⟩
    10 20 1 2 (by decide) rfl rfl

/-- Effect of one operation that does not destroy interface `i` on the
private instance `i` owns: unchanged, or its back-reference overwritten by an
operation that rebinds it. -/
theorem World.Inv.step_owned {w w1 : World F} (hinv : w.Inv) {op : Op F} {i a p : Ptr} {m : F}
    (hi : w.ifaces i = some a) (ho : w.heap a = some { qxt_p_ptr := some p, members := m })
    (hd : op.destroys i = false) (h : w.step op = .ok w1) :
    w1.heap a = some { qxt_p_ptr := some p, members := m } ∨
    (op.rebinds i a = true ∧ ∃ q, w1.heap a = some { qxt_p_ptr := some q, members := m }) := by
  cases op with
  | construct j b v =>
    obtain ⟨-, -, hb, rfl⟩ := World.construct_inv h
    have hab : a ≠ b := by
      rintro rfl
      simp [hb] at ho
    exact Or.inl (by simpa [Function.update_noteq hab] using ho)
  | destruct j =>
    have hji : j ≠ i := by
      rintro rfl
      simp [Op.destroys] at hd
    obtain ⟨b, hj, -, -, hheap⟩ := World.destruct_inv h
    have hab : a ≠ b := by
      rintro rfl
      exact hji (hinv.2 j i a hj hi)
    rcases hheap with ⟨-, hh⟩ | ⟨-, -, hh⟩
    · exact Or.inl (by rw [hh]; exact ho)
    · exact Or.inl (by rw [hh]; simpa [Function.update_noteq hab] using ho)
  | setPublic j pub =>
    obtain ⟨b, hj, hb⟩ := World.setPublic_inv h
    obtain ⟨o, -, hob, rfl⟩ := World.QXT_setPublic_inv hb
    by_cases hab : a = b
    · subst hab
      have hji : j = i := hinv.2 j i a hj hi
      rw [ho] at hob
      have hm : o.members = m := by
        rw [← Option.some.inj hob]
      exact Or.inr ⟨by simp [Op.rebinds, hji], pub, by simp [hm]⟩
    · exact Or.inl (by simpa [Function.update_noteq hab] using ho)
  | QXT_setPublic b pub =>
    obtain ⟨o, -, hob, rfl⟩ := World.QXT_setPublic_inv h
    by_cases hab : a = b
    · subst hab
      rw [ho] at hob
      have hm : o.members = m := by
        rw [← Option.some.inj hob]
      exact Or.inr ⟨by simp [Op.rebinds], pub, by simp [hm]⟩
    · exact Or.inl (by simpa [Function.update_noteq hab] using ho)
  | call j => rw [(World.observe_inv h).1]; exact Or.inl ho
  | call_const j => rw [(World.observe_inv h).1]; exact Or.inl ho
  | arrow j => rw [(World.observe_inv h).1]; exact Or.inl ho
  | arrow_const j => rw [(World.observe_inv h).1]; exact Or.inl ho
  | qxt_p b => rw [(World.observe_inv h).1]; exact Or.inl ho
  | qxt_p_const b => rw [(World.observe_inv h).1]; exact Or.inl ho
  | qxt_ptr b => rw [(World.observe_inv h).1]; exact Or.inl ho
  | qxt_ptr_const b => rw [(World.observe_inv h).1]; exact Or.inl ho

theorem Op.destroys_of_rebinds {op : Op F} {i a : Ptr} (h : op.rebinds i a = false) :
    op.destroys i = false := by
  cases op <;> simp_all [Op.rebinds, Op.destroys]

/-- Operations that do not rebind keep the back-reference of an owned instance. -/
theorem World.Inv.run_keeps {w w1 : World F} (hinv : w.Inv) {ops : List (Op F)} {i a p : Ptr}
    {m : F} (hi : w.ifaces i = some a)
    (ho : w.heap a = some { qxt_p_ptr := some p, members := m })
    (hno : ∀ op ∈ ops, op.rebinds i a = false) (h : w.run ops = .ok w1) :
    w1.ifaces i = some a ∧ w1.heap a = some { qxt_p_ptr := some p, members := m } := by
  induction ops generalizing w with
  | nil =>
    simp only [World.run] at h
    rw [← Except.ok.inj h]
    exact ⟨hi, ho⟩
  | cons op ops ih =>
    obtain ⟨w', hs, hr⟩ := World.run_cons_inv h
    have hreb := hno op (List.mem_cons_self _ _)
    have hd := Op.destroys_of_rebinds hreb
    have ho' : w'.heap a = some { qxt_p_ptr := some p, members := m } := by
      rcases hinv.step_owned hi ho hd hs with h1 | ⟨h1, -⟩
      · exact h1
      · rw [hreb] at h1
        exact absurd h1 (by decide)
    exact ih (hinv.step hs) (World.step_ifaces hs hi hd) ho'
      (fun o hmem => hno o (List.mem_cons_of_mem _ hmem)) hr

/-- Operations that do not destroy the owner keep the back-reference set. -/
theorem World.Inv.run_set {w w1 : World F} (hinv : w.Inv) {ops : List (Op F)} {i a p : Ptr}
    {m : F} (hi : w.ifaces i = some a)
    (ho : w.heap a = some { qxt_p_ptr := some p, members := m })
    (hno : ∀ op ∈ ops, op.destroys i = false) (h : w.run ops = .ok w1) :
    ∃ q, w1.heap a = some { qxt_p_ptr := some q, members := m } := by
  induction ops generalizing w p with
  | nil =>
    simp only [World.run] at h
    rw [← Except.ok.inj h]
    exact ⟨p, ho⟩
  | cons op ops ih =>
    obtain ⟨w', hs, hr⟩ := World.run_cons_inv h
    have hd := hno op (List.mem_cons_self _ _)
    have hi' := World.step_ifaces hs hi hd
    have hrest : ∀ o ∈ ops, o.destroys i = false :=
      fun o hmem => hno o (List.mem_cons_of_mem _ hmem)
    rcases hinv.step_owned hi ho hd hs with h1 | ⟨-, q, h1⟩
    · exact ih (hinv.step hs) hi' h1 hrest hr
    · exact ih (hinv.step hs) hi' h1 hrest hr

/-- Counterexample to C6: bind the sample interface to 7, then bind it to 8 by
`setPublic` (or by `QXT_setPublic` on its private instance): `qxt_ptr()`
returned 7 after the first call and returns 8 after the second. -/
theorem C6_counterexample :
    (World.sample0.run [.construct 10 1 (), .setPublic 10 7]).bind
        (fun w => w.qxt_ptr 1) = .ok 7 ∧
    (World.sample0.run [.construct 10 1 (), .setPublic 10 7, .setPublic 10 8]).bind
        (fun w => w.qxt_ptr 1) = .ok 8 ∧
    (World.sample0.run [.construct 10 1 (), .setPublic 10 7, .QXT_setPublic 1 8]).bind
        (fun w => w.qxt_ptr 1) = .ok 8 :=
  ⟨rfl, rfl, rfl⟩

/-- C6, amended: once the back-reference of the instance at `a` owned by the
live interface `i` is `p`, every sequence of operations that contains no
`setPublic` on `i`, no `QXT_setPublic` on `a` and no destruction of `i`
leaves it `p`: `qxt_ptr()`, const or not, still returns `p`. A further
`setPublic(q)` on `i` or `QXT_setPublic(q)` on `a` returns and reassigns it:
`qxt_ptr()` then returns `q`. -/
theorem C6_backref_changed_only_by_rebinding (w : World F) (hw : Reachable w) (i a p : Ptr)
    (hi : w.ifaces i = some a) (hp : w.qxt_ptr a = .ok p) (ops : List (Op F)) (w1 : World F)
    (hno : ∀ op ∈ ops, op.rebinds i a = false) (hr : w.run ops = .ok w1) :
    w1.ifaces i = some a ∧ w1.qxt_ptr a = .ok p ∧ w1.qxt_ptr_const a = .ok p ∧
    (∀ q, ∃ w2, w1.setPublic i q = .ok w2 ∧ w2.qxt_ptr a = .ok q) ∧
    (∀ q, ∃ w2, w1.QXT_setPublic a q = .ok w2 ∧ w2.qxt_ptr a = .ok q) := by
  obtain ⟨ha, m, ho⟩ := World.qxt_ptr_inv hp
  obtain ⟨hi1, ho1⟩ := hw.inv.run_keeps hi ho hno hr
  have hq := World.qxt_of_heap w1 ha ho1
  refine ⟨hi1, hq.1, hq.2.1, ?_, ?_⟩
  · intro q
    obtain ⟨o, -, -, hs⟩ := (hw.inv.run hr).setPublic_ok hi1 q
    exact ⟨_, hs, (World.qxt_of_heap _ ha (Function.update_same a _ w1.heap)).1⟩
  · intro q
    exact ⟨_, w1.QXT_setPublic_ok a q _ ha ho1,
      (World.qxt_of_heap _ ha (Function.update_same a _ w1.heap)).1⟩

/-- Witness of C6, amended: the sample interface bound to 7, then used
without rebinding while a second interface is constructed and bound to 8. -/
theorem C6_backref_changed_only_by_rebinding_witness :
    Reachable World.sampleBound ∧ World.sampleBound.ifaces 10 = some 1 ∧
    World.sampleBound.qxt_ptr 1 = .ok 7 ∧
    ∃ w1, World.sampleBound.run
        [.call 10, .construct 20 2 (), .setPublic 20 8, .arrow 10] = .ok w1 ∧
      w1.ifaces 10 = some 1 ∧ w1.qxt_ptr 1 = .ok 7 ∧ w1.qxt_ptr_const 1 = .ok 7 ∧
      (∀ q, ∃ w2, w1.setPublic 10 q = .ok w2 ∧ w2.qxt_ptr 1 = .ok q) ∧
      (∀ q, ∃ w2, w1.QXT_setPublic 1 q = .ok w2 ∧ w2.qxt_ptr 1 = .ok q) :=
  ⟨Reachable.sampleBound, rfl, rfl, _, rfl,
    C6_backref_changed_only_by_rebinding World.sampleBound Reachable.sampleBound
      10 1 7 rfl rfl [.call 10, .construct 20 2 (), .setPublic 20 8, .arrow 10] _
      (by decide) rfl⟩

/-- Counterexample to C7: right after the constructor of the interface at 10
has returned (the sample world), before any `setPublic`, the back-reference of
its private instance has no value: `qxt_ptr()` and `qxt_p()` are undefined. -/
theorem C7_counterexample :
    World.sample0.construct 10 1 () = .ok World.sample ∧
    World.sample.qxt_ptr 1 = .error .uninitRead ∧
    World.sample.qxt_ptr_const 1 = .error .uninitRead ∧
    World.sample.qxt_p 1 = .error .uninitRead ∧
    World.sample.qxt_p_const 1 = .error .uninitRead :=
  ⟨rfl, rfl, rfl, rfl, rfl⟩

/-- C7, amended: the back-reference is valid from the first binding on. For a
live interface `qxt_d` owning the instance at `a`, `QXT_INIT_PRIVATE` run by
the public object `this` returns and sets the back-reference to `this`; after
any later operations that do not destroy the interface it is still set, so
`qxt_ptr()` returns a pointer `q` and `qxt_p()` is the dereference of `q`
(the object itself when `q` points to a live public object); and when those
operations do not rebind it, `q` is `this`, the public owner. -/
theorem C7_backref_valid_after_binding (w : World F) (hw : Reachable w) (this qxt_d a : Ptr)
    (hi : w.ifaces qxt_d = some a) :
    ∃ w1, w.QXT_INIT_PRIVATE this qxt_d = .ok w1 ∧ w1.qxt_ptr a = .ok this ∧
      (∀ (ops : List (Op F)) (w2 : World F),
        (∀ op ∈ ops, op.destroys qxt_d = false) → w1.run ops = .ok w2 →
        ∃ q, w2.qxt_ptr a = .ok q ∧ w2.qxt_ptr_const a = .ok q ∧
          w2.qxt_p a = derefPub w2 q ∧ w2.qxt_p_const a = derefPub w2 q ∧
          (q ≠ 0 → w2.pubs q = true → w2.qxt_p a = .ok q ∧ w2.qxt_p_const a = .ok q)) ∧
      (∀ (ops : List (Op F)) (w2 : World F),
        (∀ op ∈ ops, op.rebinds qxt_d a = false) → w1.run ops = .ok w2 →
        w2.qxt_ptr a = .ok this ∧ w2.qxt_ptr_const a = .ok this ∧
        w2.qxt_p a = derefPub w2 this ∧ w2.qxt_p_const a = derefPub w2 this) := by
  obtain ⟨o, ha, ho, hs⟩ := hw.inv.setPublic_ok hi this
  have hinv1 := @World.Inv.step F w _ (Op.setPublic qxt_d this) hw.inv hs
  have ho1 : (World.mk w.pubs (Function.update w.heap a
      (some { qxt_p_ptr := some this, members := o.members })) w.ifaces).heap a
      = some { qxt_p_ptr := some this, members := o.members } :=
    Function.update_same a _ w.heap
  refine ⟨_, hs, (World.qxt_of_heap _ ha ho1).1, ?_, ?_⟩
  · intro ops w2 hno hr
    obtain ⟨q, hq⟩ := hinv1.run_set hi ho1 hno hr
    obtain ⟨h1, h2, h3, h4⟩ := World.qxt_of_heap w2 ha hq
    refine ⟨q, h1, h2, h3, h4, ?_⟩
    intro hq0 hpub
    rw [h3, h4]
    simp [derefPub, hq0, hpub]
  · intro ops w2 hno hr
    exact World.qxt_of_heap w2 ha (hinv1.run_keeps hi ho1 hno hr).2

/-- Witness of C7, amended: the sample interface initialised by the public
object at 7. -/
theorem C7_backref_valid_after_binding_witness :
    World.sample.ifaces 10 = some 1 ∧
    ∃ w1, World.sample.QXT_INIT_PRIVATE 7 10 = .ok w1 ∧ w1.qxt_ptr 1 = .ok 7 ∧
      (∀ (ops : List (Op Unit)) (w2 : World Unit),
        (∀ op ∈ ops, op.destroys 10 = false) → w1.run ops = .ok w2 →
        ∃ q, w2.qxt_ptr 1 = .ok q ∧ w2.qxt_ptr_const 1 = .ok q ∧
          w2.qxt_p 1 = derefPub w2 q ∧ w2.qxt_p_const 1 = derefPub w2 q ∧
          (q ≠ 0 → w2.pubs q = true → w2.qxt_p 1 = .ok q ∧ w2.qxt_p_const 1 = .ok q)) ∧
      (∀ (ops : List (Op Unit)) (w2 : World Unit),
        (∀ op ∈ ops, op.rebinds 10 1 = false) → w1.run ops = .ok w2 →
        w2.qxt_ptr 1 = .ok 7 ∧ w2.qxt_ptr_const 1 = .ok 7 ∧
        w2.qxt_p 1 = derefPub w2 7 ∧ w2.qxt_p_const 1 = derefPub w2 7) :=
  ⟨rfl, C7_backref_valid_after_binding World.sample Reachable.sample 7 10 1 rfl⟩

/-- C8: in every reachable world the `pvt` of a live interface is non-null and
points to a live private instance, so `setPublic` with any argument,
`operator()` and `operator->` (const or not) all return a result; none of
them faults. -/
theorem C8_no_error_outcome (w : World F) (hw : Reachable w) (i : Ptr)
    (hi : i ∈ w.liveIfaces) :
    ∃ a, w.ifaces i = some a ∧ a ≠ 0 ∧ a ∈ w.livePrivate ∧
      (∀ pub, ∃ w1, w.setPublic i pub = .ok w1) ∧
      w.call i = .ok a ∧ w.call_const i = .ok a ∧
      w.arrow i = .ok a ∧ w.arrow_const i = .ok a := by
  have hi' : (w.ifaces i).isSome = true := hi
  obtain ⟨a, ha⟩ := Option.isSome_iff_exists.mp hi'
  have hlive := hw.inv.1 i a ha
  refine ⟨a, ha, (World.lookup_isSome hlive).1, hlive, ?_, hw.inv.access ha⟩
  intro pub
  obtain ⟨o, -, -, h⟩ := hw.inv.setPublic_ok ha pub
  exact ⟨_, h⟩

/-- Witness of C8: the interface of the sample world. -/
theorem C8_no_error_outcome_witness :
    (10 : Ptr) ∈ World.sample.liveIfaces ∧
    ∃ a, World.sample.ifaces 10 = some a ∧ a ≠ 0 ∧ a ∈ World.sample.livePrivate ∧
      (∀ pub, ∃ w1, World.sample.setPublic 10 pub = .ok w1) ∧
      World.sample.call 10 = .ok a ∧ World.sample.call_const 10 = .ok a ∧
      World.sample.arrow 10 = .ok a ∧ World.sample.arrow_const 10 = .ok a :=
  ⟨rfl, C8_no_error_outcome World.sample Reachable.sample 10 rfl⟩

end Qxt

namespace QtAV

theorem AVPlayer.declares_iff (n : String) :
    AVPlayer.declares n = true ↔ ∃ m ∈ AVPlayer.members, m.name = n := by
  simp [AVPlayer.declares, List.any_eq_true]

theorem AVPlayer.declaresSignal_iff (n : String) :
    AVPlayer.declaresSignal n = true ↔
      ∃ m ∈ AVPlayer.members, m.name = n ∧ m.sect = Sect.signal := by
  simp [AVPlayer.declaresSignal, List.any_eq_true]

/-- C9: every `Q_PROPERTY` line of `AVPlayer` (there are 18) names a READ
accessor and a NOTIFY signal; the READ accessor, the WRITE setter where one
is given, and the NOTIFY signal are member functions the class declares, the
NOTIFY one under `Q_SIGNALS:`. -/
theorem C9_every_property_notifies :
    AVPlayer.properties.length = 18 ∧
    ∀ p ∈ AVPlayer.properties,
      (∃ r, p.read = some r ∧ ∃ m ∈ AVPlayer.members, m.name = r) ∧
      (∀ s, p.write = some s → ∃ m ∈ AVPlayer.members, m.name = s) ∧
      (∃ n, p.notify = some n ∧
        ∃ m ∈ AVPlayer.members, m.name = n ∧ m.sect = Sect.signal) := by
  have hall : AVPlayer.properties.all AVPlayer.propertyBacked = true := by decide
  refine ⟨rfl, ?_⟩
  intro p hp
  have hb := List.all_eq_true.mp hall p hp
  simp only [AVPlayer.propertyBacked, Bool.and_eq_true] at hb
  obtain ⟨⟨hr, hw⟩, hn⟩ := hb
  refine ⟨?_, ?_, ?_⟩
  · cases hpr : p.read with
    | none => simp [hpr] at hr
    | some r =>
      rw [hpr] at hr
      exact ⟨r, rfl, (AVPlayer.declares_iff r).mp hr⟩
  · intro s hs
    rw [hs] at hw
    exact (AVPlayer.declares_iff s).mp hw
  · cases hpn : p.notify with
    | none => simp [hpn] at hn
    | some n =>
      rw [hpn] at hn
      exact ⟨n, rfl, (AVPlayer.declaresSignal_iff n).mp hn⟩

/-- C10: `AVPlayer::State` has exactly the enumerators `StoppedState`,
`PlayingState` and `PausedState`; by the C++ numbering rule their values are
0, 1 and 2 in that order, so `StoppedState` is the zero value; names and
values are pairwise distinct. -/
theorem C10_state_enumerators :
    AVPlayer.State.map Enumerator.name = ["StoppedState", "PlayingState", "PausedState"] ∧
    enumValues 0 AVPlayer.State
      = [("StoppedState", 0), ("PlayingState", 1), ("PausedState", 2)] ∧
    (AVPlayer.State.map Enumerator.name).Nodup ∧
    ((enumValues 0 AVPlayer.State).map Prod.snd).Nodup := by
  refine ⟨rfl, rfl, by decide, by decide⟩

/-- C11: the class declares two overloads of `installFilter`, one taking an
`AudioFilter*` and one a `VideoFilter*`, each with an `int index` whose
default argument `0x7FFFFFFF` is 2^31 - 1, the largest `int`. So for every
list size an `int` can hold, the default index is not negative and is at
least the size: it falls under the documented case `index >= size()`, append
at last, never under the negative-index case. -/
theorem C11_default_index_appends (size : Int) (h : size ≤ INT_MAX) :
    AVPlayer.installFilterOverloads.map (fun m => m.params.map Param.ty)
      = [["AudioFilter*", "int"], ["VideoFilter*", "int"]] ∧
    ∀ m ∈ AVPlayer.installFilterOverloads,
      ∃ d, m.defaultIndex = some d ∧ d = 0x7FFFFFFF ∧ d = 2 ^ 31 - 1 ∧ d = INT_MAX ∧
        ¬ d < 0 ∧ d ≥ size ∧ indexCase size d = IndexCase.append := by
  refine ⟨by decide, ?_⟩
  have hall : ∀ m ∈ AVPlayer.installFilterOverloads, m.defaultIndex = some INT_MAX := by
    decide
  intro m hm
  have hmax : INT_MAX = 2147483647 := by
    norm_num [INT_MAX]
  refine ⟨INT_MAX, hall m hm, ?_, ?_, rfl, ?_, h, ?_⟩
  · rw [hmax]
  · rw [hmax]
    norm_num
  · rw [hmax]
    norm_num
  · have hneg : ¬ INT_MAX < 0 := by
      rw [hmax]
      norm_num
    simp [indexCase, hneg, h]

/-- Witness of C11: a filter list of the largest size an `int` can hold. -/
theorem C11_default_index_appends_witness :
    INT_MAX ≤ INT_MAX ∧
    AVPlayer.installFilterOverloads.map (fun m => m.params.map Param.ty)
      = [["AudioFilter*", "int"], ["VideoFilter*", "int"]] ∧
    ∀ m ∈ AVPlayer.installFilterOverloads,
      ∃ d, m.defaultIndex = some d ∧ d = 0x7FFFFFFF ∧ d = 2 ^ 31 - 1 ∧ d = INT_MAX ∧
        ¬ d < 0 ∧ d ≥ INT_MAX ∧ indexCase INT_MAX d = IndexCase.append :=
  ⟨le_refl _, C11_default_index_appends INT_MAX (le_refl _)⟩

end QtAV

namespace Qxt

variable {F : Type}

theorem World.setPublic_of_heap (w : World F) {i a : Ptr} {o : QxtPrivate F} (pub : Ptr)
    (hi : w.ifaces i = some a) (ha : a ≠ 0) (ho : w.heap a = some o) :
    w.setPublic i pub = .ok
      { pubs := w.pubs
        heap := Function.update w.heap a
          (some { qxt_p_ptr := some pub, members := o.members })
        ifaces := w.ifaces } := by
  simp only [World.setPublic, hi]
  exact w.QXT_setPublic_ok a pub o ha ho

theorem World.step_accessor {w w1 : World F} {op : Op F} (hop : op.isAccessor = true)
    (h : w.step op = .ok w1) : w1 = w := by
  cases op with
  | call i => exact (World.observe_inv h).1
  | call_const i => exact (World.observe_inv h).1
  | arrow i => exact (World.observe_inv h).1
  | arrow_const i => exact (World.observe_inv h).1
  | qxt_p a => exact (World.observe_inv h).1
  | qxt_p_const a => exact (World.observe_inv h).1
  | qxt_ptr a => exact (World.observe_inv h).1
  | qxt_ptr_const a => exact (World.observe_inv h).1
  | construct i a v => simp [Op.isAccessor] at hop
  | destruct i => simp [Op.isAccessor] at hop
  | setPublic i pub => simp [Op.isAccessor] at hop
  | QXT_setPublic a pub => simp [Op.isAccessor] at hop

/-- C12: for a live interface `i` of a reachable world, owning the instance at
`a`, and all public pointers `p` and `q`: `setPublic(p)` followed by
`setPublic(q)` returns and leaves the same world as `setPublic(q)` alone;
`setPublic(p)` applied twice leaves the same world as applied once; and after
`setPublic(p); setPublic(q)` the instance's `qxt_ptr()` returns `q`. -/
theorem C12_rebinding_last_write_wins (w : World F) (hw : Reachable w) (i a p q : Ptr)
    (hi : w.ifaces i = some a) :
    ∃ w1 w2 w3 w4, w.setPublic i p = .ok w1 ∧ w1.setPublic i q = .ok w2 ∧
      w.setPublic i q = .ok w3 ∧ w2 = w3 ∧
      w1.setPublic i p = .ok w4 ∧ w4 = w1 ∧
      w2.qxt_ptr a = .ok q ∧ w2.qxt_ptr_const a = .ok q := by
  obtain ⟨ha, hs⟩ := hw.inv.heap_isSome hi
  obtain ⟨o, ho⟩ := Option.isSome_iff_exists.mp hs
  have h1 := w.setPublic_of_heap p hi ha ho
  have h3 := w.setPublic_of_heap q hi ha ho
  have ho1 : (World.mk w.pubs (Function.update w.heap a
      (some { qxt_p_ptr := some p, members := o.members })) w.ifaces).heap a
      = some { qxt_p_ptr := some p, members := o.members } :=
    Function.update_same a _ w.heap
  have h2 := World.setPublic_of_heap _ q (show (World.mk w.pubs (Function.update w.heap a
      (some { qxt_p_ptr := some p, members := o.members })) w.ifaces).ifaces i = some a
      from hi) ha ho1
  have h4 := World.setPublic_of_heap _ p (show (World.mk w.pubs (Function.update w.heap a
      (some { qxt_p_ptr := some p, members := o.members })) w.ifaces).ifaces i = some a
      from hi) ha ho1
  refine ⟨_, _, _, _, h1, h2, h3, ?_, h4, ?_, ?_⟩
  · simp only [Function.update_idem]
  · simp only [Function.update_idem]
  · have := World.qxt_of_heap (World.mk w.pubs (Function.update (Function.update w.heap a
        (some { qxt_p_ptr := some p, members := o.members })) a
        (some { qxt_p_ptr := some q, members := o.members })) w.ifaces) ha
        (Function.update_same a _ _)
    exact ⟨this.1, this.2.1⟩

/-- Witness of C12: the sample interface bound to 7 and then to 8. -/
theorem C12_rebinding_last_write_wins_witness :
    World.sample.ifaces 10 = some 1 ∧
    ∃ w1 w2 w3 w4, World.sample.setPublic 10 7 = .ok w1 ∧ w1.setPublic 10 8 = .ok w2 ∧
      World.sample.setPublic 10 8 = .ok w3 ∧ w2 = w3 ∧
      w1.setPublic 10 7 = .ok w4 ∧ w4 = w1 ∧
      w2.qxt_ptr 1 = .ok 8 ∧ w2.qxt_ptr_const 1 = .ok 8 :=
  ⟨rfl, C12_rebinding_last_write_wins World.sample Reachable.sample 10 1 7 8 rfl⟩

theorem Reachable.sampleTwo : Reachable World.sampleTwo :=
  ⟨fun p => decide (p = 7 ∨ p = 8),
    [.construct 10 1 (), .setPublic 10 7, .construct 20 2 (), .setPublic 20 8], rfl⟩

theorem World.qxt_ptr_congr {w w1 : World F} {b : Ptr} (h : w1.heap b = w.heap b) :
    w1.qxt_ptr b = w.qxt_ptr b ∧ w1.qxt_ptr_const b = w.qxt_ptr_const b := by
  simp [World.qxt_ptr, World.qxt_ptr_const, World.onPrivate, World.lookup, h]

/-- C13: for a live interface `i` of a reachable world, owning the instance at
`a`, `i.setPublic(pub)` returns and changes only the back-reference of that
instance: the `PUB` objects, the `pvt` of every interface (so also which
instance `i` owns) and the set of live private instances are unchanged, the
instance at `a` keeps its other members, every other private instance is
unchanged, and so every other interface keeps its owned instance with the
same back-reference. The accessors `operator()`, `operator->`, `qxt_p()` and
`qxt_ptr()` (const or not), whenever they return, leave the world as it was. -/
theorem C13_setPublic_changes_only_backref (w : World F) (hw : Reachable w) (i a pub : Ptr)
    (hi : w.ifaces i = some a) :
    ∃ w1 o o1, w.setPublic i pub = .ok w1 ∧ w.heap a = some o ∧ w1.heap a = some o1 ∧
      w1.pubs = w.pubs ∧ w1.ifaces = w.ifaces ∧ w1.ifaces i = some a ∧
      w1.livePrivate = w.livePrivate ∧
      o1.members = o.members ∧ o1.qxt_p_ptr = some pub ∧
      (∀ b, b ≠ a → w1.heap b = w.heap b) ∧
      (∀ j b, j ≠ i → w.ifaces j = some b →
        w1.ifaces j = some b ∧ b ≠ a ∧ w1.heap b = w.heap b ∧
        w1.qxt_ptr b = w.qxt_ptr b ∧ w1.qxt_ptr_const b = w.qxt_ptr_const b) ∧
      (∀ (w2 w3 : World F) (op : Op F),
        op.isAccessor = true → w2.step op = .ok w3 → w3 = w2) := by
  obtain ⟨ha, hs⟩ := hw.inv.heap_isSome hi
  obtain ⟨o, ho⟩ := Option.isSome_iff_exists.mp hs
  have h1 := w.setPublic_of_heap pub hi ha ho
  have hother : ∀ b, b ≠ a →
      (World.mk w.pubs (Function.update w.heap a
        (some { qxt_p_ptr := some pub, members := o.members })) w.ifaces).heap b
        = w.heap b :=
    fun b hb => Function.update_noteq hb _ _
  refine ⟨_, o, _, h1, ho, Function.update_same a _ w.heap, rfl, rfl, hi, ?_, rfl, rfl,
    hother, ?_, ?_⟩
  · exact (@World.SameShape.of_access F w _ (Op.setPublic i pub) i rfl h1).livePrivate
  · intro j b hji hj
    have hba : b ≠ a := by
      rintro rfl
      exact hji (hw.inv.2 j i b hj hi)
    have hb := hother b hba
    exact ⟨hj, hba, hb, World.qxt_ptr_congr hb⟩
  · intro w2 w3 op hop hstep
    exact World.step_accessor hop hstep

/-- Witness of C13: rebinding the interface at 10 of the sample world with
two interfaces. -/
theorem C13_setPublic_changes_only_backref_witness :
    World.sampleTwo.ifaces 10 = some 1 ∧
    ∃ w1 o o1, World.sampleTwo.setPublic 10 8 = .ok w1 ∧
      World.sampleTwo.heap 1 = some o ∧ w1.heap 1 = some o1 ∧
      w1.pubs = World.sampleTwo.pubs ∧ w1.ifaces = World.sampleTwo.ifaces ∧
      w1.ifaces 10 = some 1 ∧ w1.livePrivate = World.sampleTwo.livePrivate ∧
      o1.members = o.members ∧ o1.qxt_p_ptr = some 8 ∧
      (∀ b, b ≠ 1 → w1.heap b = World.sampleTwo.heap b) ∧
      (∀ j b, j ≠ 10 → World.sampleTwo.ifaces j = some b →
        w1.ifaces j = some b ∧ b ≠ 1 ∧ w1.heap b = World.sampleTwo.heap b ∧
        w1.qxt_ptr b = World.sampleTwo.qxt_ptr b ∧
        w1.qxt_ptr_const b = World.sampleTwo.qxt_ptr_const b) ∧
      (∀ (w2 w3 : World Unit) (op : Op Unit),
        op.isAccessor = true → w2.step op = .ok w3 → w3 = w2) :=
  ⟨rfl, C13_setPublic_changes_only_backref World.sampleTwo Reachable.sampleTwo 10 1 8 rfl⟩

end Qxt

namespace QtAV

/-- C14 at the property `repeat`: the `Q_PROPERTY` line declares it `qint64`,
while `repeat()` returns `int`, `setRepeat(max)` takes an `int` and
`repeatChanged(r)` carries an `int`, so its types do not agree. For each of
the other 17 properties the declared type is the return type of the READ
accessor, the parameter type of the WRITE setter where given, and the
parameter type of the NOTIFY signal where that carries a value. -/
theorem C14_repeat_property_type_differs :
    AVPlayer.repeatProperty ∈ AVPlayer.properties ∧
    AVPlayer.repeatProperty.ty = "qint64" ∧
    AVPlayer.readType AVPlayer.repeatProperty = some "int" ∧
    AVPlayer.writeType AVPlayer.repeatProperty = some "int" ∧
    AVPlayer.notifyType AVPlayer.repeatProperty = some "int" ∧
    sameType "int" "qint64" = false ∧
    AVPlayer.typesAgree AVPlayer.repeatProperty = false ∧
    (AVPlayer.properties.filter (fun p => !AVPlayer.typesAgree p)).map QProperty.name
      = ["repeat"] ∧
    (AVPlayer.properties.filter AVPlayer.typesAgree).length = 17 := by
  decide

end QtAV
